import Mathlib

/-!
Verification of the dbmap repository (a Go object-relational mapping layer)
against its natural-language specification.

The development shallowly embeds the two layers the claims are about:

* the descriptor layer of `part_004` (`describe`, `processIndex`, the SQL
  text generators `SelectStr`, `CreateStr`, `UpdateStr`, `InsertStr`,
  `InsertOrReplaceStr`, `TruncateStr`, and the argument marshalers
  `UpdateArg`, `InsertArg`, `SelectArg`);
* the two stateful coordinators: `DbType` of `dbmap.go` (with its own
  descriptor builder `dscFromType`) and `WrapType` of `wrap.go`.

Modelling conventions:

* Go strings are Lean `String`s; `reflect.StructField` becomes `GoField`
  holding the field name, the four tag values, the printed type
  (`fldTp.String()`), the printed kind (`fldTp.Kind()` under `%v`) and the
  field position; field positions stand in for both `sf.Index` and
  `sf.Offset`, which in the source identify the same field.
* Go maps become association lists in insertion order; a place where the
  source ranges over a Go map (whose iteration order Go leaves unspecified
  and randomizes) takes the list of entries to visit as an explicit
  argument, so a single source call corresponds to the family of model
  calls over all permutations of the entries.
* record values are environments `List Val` indexed by field position with
  `Val := Int`; the claims under study never depend on the runtime type of
  a stored value, only on type identity of whole records, which is modelled
  by the record type name.
* The SQL engine (`database/sql`) is an external collaborator: it is an
  oracle `Eng` of response functions, and every coordinator operation also
  returns the list `List Ev` of engine calls it made, so that "no engine
  interaction" is a statement about the trace.
* `sort.Sort` (unstable, comparator `nameStr <`) is modelled by insertion
  sort; the source leaves the order of equal keys unspecified, and no claim
  under study depends on it.
-/

set_option autoImplicit false

namespace Dbmap

/-- SQL parameter and field values. -/
abbrev Val := Int

/-- Character class of the `\d` escape of Go regexp (ASCII digits). -/
def goDigit (c : Char) : Bool :=
  '0' ≤ c && c ≤ '9'

/-- Character class of the `\s` escape of Go regexp: tab, newline, form
feed, carriage return and space. -/
def goSpace (c : Char) : Bool :=
  c = ' ' || c = '\t' || c = '\n' || c = '\x0c' || c = '\r'

/-- Model of a `reflect.StructField` together with the tag values the
source reads from it. -/
structure GoField where
  name : String
  tagDb : String
  tagDbPrimary : String
  tagDbTable : String
  tagDbIndex : String
  /-- `fldTp.String()`, the key used for the storage-class lookup. -/
  typeStr : String
  /-- `fldTp.Kind()` as printed by the `%v` verb, e.g. `"int64"`. -/
  kindStr : String
  /-- field position in the struct; stands in for `sf.Index`/`sf.Offset`. -/
  idx : Nat
  deriving Repr, DecidableEq, Inhabited

/-- A Go struct type: its identity (name) and its field list in
declaration order. -/
structure GoStruct where
  nameStr : String
  fields : List GoField
  deriving Repr, DecidableEq, Inhabited

/-- A Go type as seen by the descriptor builders: either a struct or
something else, of which only the printed kind matters. -/
inductive GoType where
  | structT (s : GoStruct)
  | otherT (kindStr : String)
  deriving Repr, DecidableEq, Inhabited

/-- The type-identity string of a `GoType` (stands in for `reflect.Type`
equality, assuming distinct names denote distinct types). -/
def GoType.keyStr : GoType → String
  | .structT s => s.nameStr
  | .otherT k => k

/-- `recTp.Kind() == reflect.Struct`. -/
def GoType.isStruct : GoType → Bool
  | .structT _ => true
  | .otherT _ => false

/-- A record value: the name of its Go type and its field values by
position. -/
structure GoRec where
  tpStr : String
  flds : List Val
  deriving Repr, DecidableEq, Inhabited

/-- The `typeMap` table of both `dbmap.go` and `part_004`: Go scalar type
string to SQL storage class. -/
def typeMap (s : String) : Option String :=
  [("[]uint8", "blob"), ("bool", "integer"), ("byte", "integer"),
   ("float", "real"), ("float32", "real"), ("float64", "real"),
   ("int", "integer"), ("int16", "integer"), ("int32", "integer"),
   ("int64", "integer"), ("int8", "integer"), ("rune", "integer"),
   ("string", "text"), ("uint", "integer"), ("uint16", "integer"),
   ("uint32", "integer"), ("uint64", "integer"), ("uint8", "integer")
  ].lookup s

/-- `prePad` of the source: a space before a non-empty tail clause. -/
def prePad (s : String) : String :=
  if s.length > 0 then " " ++ s else s

/-- `strings.Join(list, ", ")`. -/
def joinComma (l : List String) : String :=
  String.intercalate ", " l

/-! ### The index-tag pattern

`part_004` parses each comma-separated segment of a `db_index` tag with
the Go regexp `^\s*(\D{1,})(\S{1,})\s*$` (`glIdxRe`,
`FindStringSubmatch`).  Go regexp uses leftmost-first (Perl-like)
semantics: the pattern splits the segment into a whitespace run, a
non-empty non-digit capture, a non-empty non-whitespace capture and a
trailing whitespace run, preferring a longer whitespace run first, then a
longer first capture, then a longer second capture.  The matcher below
searches candidate split points in exactly that preference order. -/

/-- Match `(\S{1,})\s*$` against `r`, greedily: the second capture is the
maximal non-whitespace run, and the remainder must be all whitespace. -/
def tryCD (r : List Char) : Option (List Char) :=
  let c := r.takeWhile (fun ch => !goSpace ch)
  if c.isEmpty then none
  else if (r.dropWhile (fun ch => !goSpace ch)).all goSpace then some c
  else none

/-- Match `(\D{1,})(\S{1,})\s*$` against `u`, trying first-capture lengths
from `n` down to `1` (greedy `\D{1,}`). -/
def tryB : Nat → List Char → Option (List Char × List Char)
  | 0, _ => none
  | n + 1, u =>
    let b := u.take (n + 1)
    if b.all (fun ch => !goDigit ch) then
      match tryCD (u.drop (n + 1)) with
      | some c => some (b, c)
      | none => tryB n u
    else tryB n u

/-- Match `^\s*(\D{1,})(\S{1,})\s*$` against `s`, trying leading
whitespace-run lengths from `k` down to `0` (greedy `\s*`, which
backtracks because `\D` also matches whitespace). -/
def tryA : Nat → List Char → Option (List Char × List Char)
  | 0, s => tryB s.length s
  | k + 1, s =>
    if (s.take (k + 1)).all goSpace then
      match tryB (s.drop (k + 1)).length (s.drop (k + 1)) with
      | some bc => some bc
      | none => tryA k s
    else tryA k s

/-- `glIdxRe.FindStringSubmatch`: the two captures of
`^\s*(\D{1,})(\S{1,})\s*$`, or `none` when the segment does not match. -/
def goIdxMatch (s : String) : Option (String × String) :=
  match tryA (s.data.takeWhile goSpace).length s.data with
  | some (b, c) => some (String.mk b, String.mk c)
  | none => none

/-- One entry of an index group: `idxType` of `part_004`, holding the sort
key (the second regexp capture) and the field name passed in by
`describe`. -/
structure IdxEntry where
  nameStr : String
  fldStr : String
  deriving Repr, DecidableEq, Inhabited

/-- `idxMapType`: a Go map from group name to entry list, modelled as an
association list in insertion order. -/
abbrev IdxMap := List (String × List IdxEntry)

/-- Go map assignment `m[k] = v`: replace the binding in place or add a
new one at the end. -/
def mapPut {α : Type} (m : List (String × α)) (k : String) (v : α) :
    List (String × α) :=
  if (m.lookup k).isSome then
    m.map fun p => if p.1 = k then (k, v) else p
  else m ++ [(k, v)]

/-- `idxMap[sortStr] = append(idxMap[sortStr], e)`. -/
def idxMapAppend (m : IdxMap) (k : String) (e : IdxEntry) : IdxMap :=
  mapPut m k (((m.lookup k).getD []) ++ [e])

/-- The segment loop inside `processIndex`: each segment either matches
`glIdxRe` — its second capture and the field name are appended to the
group named by its first capture — or produces the malformed-index-tag
error, after which the remaining segments are skipped. -/
def processSegs (fldStr : String) : List String → IdxMap → IdxMap × Option String
  | [], m => (m, none)
  | s :: rest, m =>
    match goIdxMatch s with
    | some (pre, suf) =>
      processSegs fldStr rest (idxMapAppend m pre ⟨suf, fldStr⟩)
    | none => (m, some ("malformed index tag: " ++ s))

/-- Helper of `goSplitComma`, structurally recursive over the
characters. -/
def splitCommaAux : List Char → List Char → List String
  | [], acc => [String.mk acc.reverse]
  | c :: rest, acc =>
    if c = ',' then String.mk acc.reverse :: splitCommaAux rest []
    else splitCommaAux rest (c :: acc)

/-- `strings.Split(s, ",")` of Go: the substrings between commas, one
empty string per adjacent pair of commas, `[""]` for the empty string. -/
def goSplitComma (s : String) : List String :=
  splitCommaAux s.data []

/-- `processIndex` of `part_004`: tokenize a `db_index` tag (split on
commas) and store the entries for later sorting and assembling. -/
def processIndex (tagStr fldStr : String) (m : IdxMap) : IdxMap × Option String :=
  if tagStr.length > 0 then processSegs fldStr (goSplitComma tagStr) m
  else (m, none)

/-- Insert an entry into a list sorted by `nameStr` (ascending). -/
def idxInsert (e : IdxEntry) : List IdxEntry → List IdxEntry
  | [] => [e]
  | x :: xs => if e.nameStr < x.nameStr then e :: x :: xs else x :: idxInsert e xs

/-- `sort.Sort` on an index group with comparator `nameStr <`, modelled by
insertion sort (the source sort is unstable and the order of equal keys is
unspecified; no claim depends on it). -/
def idxSort : List IdxEntry → List IdxEntry
  | [] => []
  | x :: xs => idxInsert x (idxSort xs)

/-- `DscType` of `part_004`: the immutable descriptor of a record type. -/
structure Dsc where
  tblStr : String
  idPresent : Bool
  idSf : GoField
  recTpStr : String
  nameMap : List (String × GoField)
  createNameTypeStr : String
  idxMap : IdxMap
  insertNameStr : String
  insertNameList : List String
  qmStr : String
  insertSfList : List GoField
  selNameStr : String
  selSfList : List GoField
  selTypeStrList : List String
  deriving Repr, DecidableEq, Inhabited

/-- The mutable state of the field loop of `describe`: the descriptor
under construction, the local accumulation lists and the first error. -/
structure BuildSt where
  dsc : Dsc
  selList : List String
  qmList : List String
  createList : List String
  err : Option String
  deriving Repr, DecidableEq, Inhabited

/-- The initial loop state of `describe` for record type `nm`. -/
def buildInit (nm : String) : BuildSt :=
  { dsc := { tblStr := "", idPresent := false, idSf := default,
             recTpStr := nm, nameMap := [], createNameTypeStr := "",
             idxMap := [], insertNameStr := "", insertNameList := [],
             qmStr := "", insertSfList := [], selNameStr := "",
             selSfList := [], selTypeStrList := [] },
    selList := [], qmList := [], createList := [], err := none }

/-- The `db_table` processing shared by every field: set the table name
once, fail on a second occurrence. -/
def tableStep (st : BuildSt) (sf : GoField) : BuildSt :=
  if st.err.isSome then st
  else
    let tblStr := sf.tagDbTable
    if tblStr.length > 0 then
      if st.dsc.tblStr.length = 0 then
        { st with dsc := { st.dsc with tblStr := tblStr } }
      else { st with err := some "multiple occurrence of \"db_table\" tag" }
    else st

/-- One iteration of the field loop of `describe` (`part_004`): managed
column processing when the `db` tag is non-empty, otherwise primary-key
processing, followed in either case by the `db_table` processing. -/
def describeField (st : BuildSt) (sf : GoField) : BuildSt :=
  if st.err.isSome then st
  else
    let st' :=
      if sf.tagDb.length > 0 then
        let sqlStr := if sf.tagDb = "*" then sf.name else sf.tagDb
        match typeMap sf.typeStr with
        | some typeStr =>
          let nameMap := mapPut st.dsc.nameMap sqlStr sf
          let createList := st.createList ++ [sqlStr ++ " " ++ typeStr]
          let (idxMap, idxErr) := processIndex sf.tagDbIndex sf.name st.dsc.idxMap
          match idxErr with
          | none =>
            let dsc' :=
              { st.dsc with
                nameMap := nameMap, idxMap := idxMap,
                insertSfList := st.dsc.insertSfList ++ [sf],
                insertNameList := st.dsc.insertNameList ++ [sqlStr],
                selTypeStrList := st.dsc.selTypeStrList ++ [typeStr],
                selSfList := st.dsc.selSfList ++ [sf] }
            { st with
              dsc := dsc', createList := createList,
              qmList := st.qmList ++ ["?"],
              selList := st.selList ++ [sqlStr] }
          | some e =>
            let dsc' := { st.dsc with nameMap := nameMap, idxMap := idxMap }
            { st with dsc := dsc', createList := createList, err := some e }
        | none =>
          { st with
            err := some ("database does not support fields of type " ++ sf.typeStr) }
      else
        if sf.tagDbPrimary.length > 0 then
          if !st.dsc.idPresent then
            if sf.kindStr = "int64" then
              { st with
                dsc := { st.dsc with
                         selSfList := st.dsc.selSfList ++ [sf],
                         selTypeStrList := st.dsc.selTypeStrList ++ [sf.kindStr],
                         idSf := sf, idPresent := true },
                selList := st.selList ++ ["rowid"] }
            else
              { st with err := some ("expecting int64 for id, got " ++ sf.kindStr) }
          else { st with err := some "multiple occurrence of \"db_primary\" tag" }
        else st
    tableStep st' sf

/-- `describe` of `part_004`: run the field loop, apply the
post-validation checks, then finalize the joined text fragments and sort
each index group by its keys. -/
def describe (recTp : GoType) : Except String Dsc :=
  match recTp with
  | .structT s =>
    let st := s.fields.foldl describeField (buildInit s.nameStr)
    match st.err with
    | some e => .error e
    | none =>
      if st.dsc.insertSfList.length = 0 then
        .error "at least one exported structure field must have \"db\" tag"
      else if st.dsc.tblStr.length = 0 then
        .error "missing \"db_table\" tag"
      else
        .ok { st.dsc with
              qmStr := joinComma st.qmList,
              insertNameStr := joinComma st.dsc.insertNameList,
              createNameTypeStr := joinComma st.createList,
              idxMap := st.dsc.idxMap.map fun p => (p.1, idxSort p.2),
              selNameStr := joinComma st.selList }
  | .otherT _ =>
    .error "specified address must be of structure with one or more fields that have a \"db\" tag"

/-! ### The SQL text generators of `part_004` -/

/-- `SelectStr`. -/
def SelectStr (d : Dsc) (tailStr : String) : String :=
  "SELECT " ++ d.selNameStr ++ " FROM " ++ d.tblStr ++ prePad tailStr ++ ";"

/-- `CreateStr`.  The source ranges over the Go map `dsc.create.idxMap`;
the entry list to visit is therefore an explicit argument, and an actual
execution of the source corresponds to `CreateStr d entries` for some
permutation `entries` of `d.idxMap`. -/
def CreateStr (d : Dsc) (entries : IdxMap) : String × List String :=
  ("CREATE TABLE " ++ d.tblStr ++ " (" ++ d.createNameTypeStr ++ ");",
   entries.map fun p =>
     "CREATE INDEX " ++ d.tblStr ++ "_" ++ p.1 ++ " ON " ++ d.tblStr ++
       " (" ++ joinComma (p.2.map IdxEntry.fldStr) ++ ")")

/-- `updateNames`: an empty list, or a list whose first element is the
wildcard, stands for the full managed-column list. -/
def updateNames (d : Dsc) (fldNames : List String) : List String :=
  if fldNames.length = 0 then d.insertNameList
  else if fldNames.headD "" = "*" then d.insertNameList
  else fldNames

/-- `UpdateStr`. -/
def UpdateStr (d : Dsc) (fldNames : List String) : String :=
  let ns := updateNames d fldNames
  "UPDATE " ++ d.tblStr ++ " SET " ++
    joinComma (ns.map fun nm => nm ++ " = ?") ++ " WHERE rowid = ?;"

/-- `InsertStr`. -/
def InsertStr (d : Dsc) : String :=
  "INSERT INTO " ++ d.tblStr ++ " (" ++ d.insertNameStr ++ ") VALUES (" ++
    d.qmStr ++ ");"

/-- `InsertOrReplaceStr`. -/
def InsertOrReplaceStr (d : Dsc) : String :=
  "INSERT OR REPLACE INTO " ++ d.tblStr ++ " (" ++ d.insertNameStr ++
    ") VALUES (" ++ d.qmStr ++ ");"

/-- `TruncateStr`. -/
def TruncateStr (d : Dsc) : String :=
  "DELETE FROM " ++ d.tblStr ++ ";"

/-! ### The argument marshalers of `part_004` -/

/-- The name loop of `UpdateArg`: look each requested name up in
`nameMap`, appending the record's value for the found field, failing on
the first unknown name. -/
def updateArgLoop (d : Dsc) (rec : GoRec) :
    List String → List Val → Except String (List Val)
  | [], acc => .ok acc
  | nm :: rest, acc =>
    match d.nameMap.lookup nm with
    | some sf => updateArgLoop d rec rest (acc ++ [rec.flds.getD sf.idx 0])
    | none => .error ("field name \"" ++ nm ++ "\" not in structure")

/-- `UpdateArg` of `part_004`.  A pointer argument is dereferenced by the
source before any check, so the model takes the record directly. -/
def UpdateArg (d : Dsc) (rec : GoRec) (fldNames : List String) :
    Except String (List Val) :=
  if d.idPresent then
    if rec.tpStr = d.recTpStr then
      match updateArgLoop d rec (updateNames d fldNames) [] with
      | .ok acc => .ok (acc ++ [rec.flds.getD d.idSf.idx 0])
      | .error e => .error e
    else
      .error ("value passed into update must be a structure (or pointer to a structure) of type "
        ++ d.recTpStr)
  else .error "update requires structure with primary ID"

/-- `InsertArg` of `part_004`: the managed-column values in declaration
order, plus whether a write-back closure for the assigned identifier is
returned (the source returns one when the argument is a settable pointer
and a primary key is present). -/
def InsertArg (d : Dsc) (isPtr : Bool) (rec : GoRec) :
    Except String (List Val × Bool) :=
  if rec.tpStr = d.recTpStr then
    .ok (d.insertSfList.map (fun sf => rec.flds.getD sf.idx 0),
         d.idPresent && isPtr)
  else
    .error ("value passed into insert must be a structure (or pointer to a structure) of type "
      ++ d.recTpStr)

/-- `SelectArg` of `part_004`: validity of the scan-target list for a
destination record (the targets themselves are addresses; the model keeps
only whether they were produced). -/
def SelectArg (d : Dsc) (isPtr : Bool) (rec : GoRec) : Except String Unit :=
  if isPtr then
    if rec.tpStr = d.recTpStr then .ok ()
    else
      .error ("passed in record (" ++ rec.tpStr ++
        ") for select does not match descriptor (" ++ d.recTpStr ++ ")")
  else .error "passed-in value must be a structure pointer"

/-! ### The descriptor builder of `dbmap.go`

`dbmap.go` carries its own `dscType` and `dscFromType`, which differ from
`part_004` in the index handling (a flat `idxList` of field-name/column
pairs, one entry per field whose `db_index` tag is non-empty, no pattern
parsing) and in one error message. -/

/-- `dscType` of `dbmap.go`. -/
structure DscG where
  tblStr : String
  idPresent : Bool
  idSf : GoField
  recTpStr : String
  nameMap : List (String × GoField)
  createNameTypeStr : String
  /-- `create.idxList`: entries are `(sf.Name, sqlStr)`. -/
  idxList : List IdxEntry
  insertNameStr : String
  insertNameList : List String
  qmStr : String
  insertSfList : List GoField
  selNameStr : String
  selSfList : List GoField
  selTypeStrList : List String
  deriving Repr, DecidableEq, Inhabited

/-- The loop state of the field loop of `dscFromType`. -/
structure GBuildSt where
  dsc : DscG
  selList : List String
  qmList : List String
  createList : List String
  err : Option String
  deriving Repr, DecidableEq, Inhabited

/-- The initial loop state of `dscFromType` for record type `nm`. -/
def gBuildInit (nm : String) : GBuildSt :=
  { dsc := { tblStr := "", idPresent := false, idSf := default,
             recTpStr := nm, nameMap := [], createNameTypeStr := "",
             idxList := [], insertNameStr := "", insertNameList := [],
             qmStr := "", insertSfList := [], selNameStr := "",
             selSfList := [], selTypeStrList := [] },
    selList := [], qmList := [], createList := [], err := none }

/-- The `db_table` processing of `dscFromType` (same as `describe`). -/
def gTableStep (st : GBuildSt) (sf : GoField) : GBuildSt :=
  if st.err.isSome then st
  else
    let tblStr := sf.tagDbTable
    if tblStr.length > 0 then
      if st.dsc.tblStr.length = 0 then
        { st with dsc := { st.dsc with tblStr := tblStr } }
      else { st with err := some "multiple occurrence of \"db_table\" tag" }
    else st

/-- One iteration of the field loop of `dscFromType` (`dbmap.go`). -/
def dscFromTypeField (st : GBuildSt) (sf : GoField) : GBuildSt :=
  if st.err.isSome then st
  else
    let indexed := sf.tagDbIndex.length > 0
    let st' :=
      if sf.tagDb.length > 0 then
        let sqlStr := if sf.tagDb = "*" then sf.name else sf.tagDb
        match typeMap sf.typeStr with
        | some typeStr =>
          let dsc' :=
            { st.dsc with
              nameMap := mapPut st.dsc.nameMap sqlStr sf,
              idxList := if indexed then st.dsc.idxList ++ [⟨sf.name, sqlStr⟩]
                         else st.dsc.idxList,
              insertSfList := st.dsc.insertSfList ++ [sf],
              insertNameList := st.dsc.insertNameList ++ [sqlStr],
              selTypeStrList := st.dsc.selTypeStrList ++ [typeStr],
              selSfList := st.dsc.selSfList ++ [sf] }
          { st with
            dsc := dsc',
            createList := st.createList ++ [sqlStr ++ " " ++ typeStr],
            qmList := st.qmList ++ ["?"],
            selList := st.selList ++ [sqlStr] }
        | none =>
          { st with
            err := some ("database does not support fields of type " ++ sf.typeStr) }
      else
        if sf.tagDbPrimary.length > 0 then
          if !st.dsc.idPresent then
            if sf.kindStr = "int64" then
              let dsc' :=
                { st.dsc with
                  selSfList := st.dsc.selSfList ++ [sf],
                  selTypeStrList := st.dsc.selTypeStrList ++ [sf.kindStr],
                  idSf := sf, idPresent := true }
              { st with dsc := dsc', selList := st.selList ++ ["rowid"] }
            else
              { st with err := some ("expecting int64 for id, got " ++ sf.kindStr) }
          else { st with err := some "multiple occurrence of \"db_primary\" tag" }
        else st
    gTableStep st' sf

/-- The cache-miss build of `dscFromType` for a struct type: the field
loop followed by the post-validation and the joined text fragments. -/
def dscBuild (s : GoStruct) : Except String DscG :=
  let st := s.fields.foldl dscFromTypeField (gBuildInit s.nameStr)
  match st.err with
  | some e => .error e
  | none =>
    if st.dsc.insertSfList.length = 0 then
      .error "no structure fields have \"db\" tag"
    else if st.dsc.tblStr.length = 0 then
      .error "missing \"db_table\" tag"
    else
      .ok { st.dsc with
            qmStr := joinComma st.qmList,
            insertNameStr := joinComma st.dsc.insertNameList,
            createNameTypeStr := joinComma st.createList,
            selNameStr := joinComma st.selList }

/-! ### The `DbType` coordinator of `dbmap.go`

The SQL engine is an oracle of response functions; every operation also
returns the list of engine calls it performed. -/

/-- An engine call, as named by the spec's collaborator surface. -/
inductive Ev where
  | prepareC (cmd : String)
  | execC (cmd : String) (args : List Val)
  | queryC (cmd : String) (args : List Val)
  | beginT
  | commitT
  | rollbackT
  deriving Repr, DecidableEq

/-- One scanned row: either the values for the select targets in select
order, or the scan error. -/
abbrev RowRes := Except String (List Val)

/-- The engine oracle: responses of `database/sql` per call.  `queryRes`
returns the row list together with the value of `rows.Err()` after
exhaustion.  A `none` in the `Option String` results means success. -/
structure Eng where
  prepOk : String → Option String
  execRes : String → List Val → Except String (Int × Int)
  queryRes : String → List Val → Except String (List RowRes × Option String)
  beginOk : Option String
  commitOk : Option String
  rollbackOk : Option String

/-- An engine that answers every call successfully; `execRes` reports one
affected row and the constant last-insert identifier `7`. -/
def engOk : Eng :=
  { prepOk := fun _ => none,
    execRes := fun _ _ => .ok (1, 7),
    queryRes := fun _ _ => .ok ([], none),
    beginOk := none, commitOk := none, rollbackOk := none }

/-- The mutable state of a `DbType` value (its handle is implicit in the
engine oracle). -/
structure DbSt where
  err : Option String
  tx : Bool
  trace : Bool
  tested : Bool
  dscCache : List (String × DscG)
  stmtCache : List String
  deriving Repr, DecidableEq

/-- A fresh `DbType` state as produced by `DbSetHandle`/`DbOpen`. -/
def dbInit : DbSt :=
  { err := none, tx := false, trace := false, tested := false,
    dscCache := [], stmtCache := [] }

/-- `SetError` of `dbmap.go`: ignored when `err` is `nil` or when an error
is already latched (first failure wins); on the first transition it also
runs the internal coverage calls, which touch no observable state other
than the `tested` flag. -/
def dbSetError (db : DbSt) (e : Option String) : DbSt :=
  match e with
  | none => db
  | some _ => if db.err = none then { db with err := e, tested := true } else db

/-- `SetErrorf` of `dbmap.go` (the formatted message is the argument). -/
def dbSetErrorf (db : DbSt) (msg : String) : DbSt :=
  if db.err = none then { db with err := some msg } else db

/-- `ClearError`. -/
def dbClearError (db : DbSt) : DbSt :=
  { db with err := none }

/-- `statement`: look the command text up in the statement cache, prepare
and cache it on a miss.  Returns the state, the `cached` flag and the
engine calls. -/
def dbStatement (eng : Eng) (db : DbSt) (cmd : String) :
    DbSt × Bool × List Ev :=
  if db.stmtCache.contains cmd then (db, true, [])
  else
    match eng.prepOk cmd with
    | none => ({ db with stmtCache := db.stmtCache ++ [cmd] }, false, [.prepareC cmd])
    | some e => ({ db with err := some e }, false, [.prepareC cmd])

/-- `Exec` of `dbmap.go`: no-op under a latched error, otherwise prepare
(via the cache) and execute.  The result is `none` when no statement ran
or the engine failed. -/
def dbExec (eng : Eng) (db : DbSt) (cmd : String) (args : List Val) :
    DbSt × Option (Int × Int) × List Ev :=
  match db.err with
  | some _ => (db, none, [])
  | none =>
    let (db1, _cached, evs) := dbStatement eng db cmd
    match db1.err with
    | some _ => (db1, none, evs)
    | none =>
      match eng.execRes cmd args with
      | .ok r => (db1, some r, evs ++ [.execC cmd args])
      | .error e => ({ db1 with err := some e }, none, evs ++ [.execC cmd args])

/-- `Query` of `dbmap.go`: as `Exec`, returning rows. -/
def dbQuery (eng : Eng) (db : DbSt) (cmd : String) (args : List Val) :
    DbSt × Option (List RowRes × Option String) × List Ev :=
  match db.err with
  | some _ => (db, none, [])
  | none =>
    let (db1, _cached, evs) := dbStatement eng db cmd
    match db1.err with
    | some _ => (db1, none, evs)
    | none =>
      match eng.queryRes cmd args with
      | .ok r => (db1, some r, evs ++ [.queryC cmd args])
      | .error e => ({ db1 with err := some e }, none, evs ++ [.queryC cmd args])

/-- `TransactBegin` of `dbmap.go`: no-op under a latched error, and also a
silent no-op when a transaction is already open. -/
def dbTransactBegin (eng : Eng) (db : DbSt) : DbSt × List Ev :=
  match db.err with
  | some _ => (db, [])
  | none =>
    if db.tx then (db, [])
    else
      match eng.beginOk with
      | none => ({ db with tx := true }, [.beginT])
      | some e => ({ db with err := some e }, [.beginT])

/-- `transactEnd` of `dbmap.go`: with a transaction open, commit or roll
back and assign the engine result to `err` (overwriting whatever was
there); without one, latch the no-transaction error unless an error is
already latched. -/
def dbTransactEnd (eng : Eng) (db : DbSt) (ok : Bool) : DbSt × List Ev :=
  if db.tx then
    if ok then ({ db with err := eng.commitOk, tx := false }, [.commitT])
    else ({ db with err := eng.rollbackOk, tx := false }, [.rollbackT])
  else
    if db.err = none then
      ({ db with err := some ("no transaction to " ++ (if ok then "commit" else "rollback")) }, [])
    else (db, [])

/-- `TransactCommit`. -/
def dbTransactCommit (eng : Eng) (db : DbSt) : DbSt × List Ev :=
  match db.err with
  | some _ => (db, [])
  | none => dbTransactEnd eng db true

/-- `TransactRollback`. -/
def dbTransactRollback (eng : Eng) (db : DbSt) : DbSt × List Ev :=
  match db.err with
  | some _ => (db, [])
  | none => dbTransactEnd eng db false

/-- `dscFromType` of `dbmap.go`: a no-op under a latched error; for struct
types, serve from the descriptor cache or build and cache on success;
errors are latched via `SetErrorf` (first failure wins); finally apply the
primary-key requirement. -/
def dbDscFromType (db : DbSt) (recTp : GoType) (pkRequired : Bool) :
    DbSt × DscG :=
  match db.err with
  | some _ => (db, default)
  | none =>
    match recTp with
    | .structT s =>
      let (db1, dsc) :=
        match db.dscCache.lookup s.nameStr with
        | some dsc => (db, dsc)
        | none =>
          match dscBuild s with
          | .ok dsc => ({ db with dscCache := mapPut db.dscCache s.nameStr dsc }, dsc)
          | .error e => (dbSetErrorf db e, default)
      if pkRequired && !dsc.idPresent then
        (dbSetErrorf db1 "primary key is required but is not present in structure", dsc)
      else (db1, dsc)
    | .otherT _ =>
      (dbSetErrorf db "specified address must be of structure with one or more fields that have a \"db\" tag",
       default)

/-- A record-pointer argument as passed to `TableCreate`, `Update`,
`Delete` and `Truncate`: either a pointer to a record or a value of some
other kind. -/
inductive RecPtrArg where
  | ptr (tp : GoType) (vals : List Val)
  | nonPtr (kindStr : String)
  deriving Repr, DecidableEq

/-- `dscFromPtr` of `dbmap.go`. -/
def dbDscFromPtr (db : DbSt) (arg : RecPtrArg) (pkRequired : Bool) :
    DbSt × DscG :=
  match arg with
  | .ptr tp _ => dbDscFromType db tp pkRequired
  | .nonPtr k => (dbSetErrorf db ("expecting record pointer, got " ++ k), default)

/-- The index-drop loop of `TableCreate`. -/
def dbDropIdxLoop (eng : Eng) (db : DbSt) (tbl : String) :
    List IdxEntry → DbSt × List Ev
  | [] => (db, [])
  | idx :: rest =>
    let (db1, _, evs) := dbExec eng db ("DROP INDEX IF EXISTS " ++ tbl ++ idx.nameStr ++ ";") []
    let (db2, evs') := dbDropIdxLoop eng db1 tbl rest
    (db2, evs ++ evs')

/-- The index-create loop of `TableCreate`. -/
def dbCreateIdxLoop (eng : Eng) (db : DbSt) (tbl : String) :
    List IdxEntry → DbSt × List Ev
  | [] => (db, [])
  | idx :: rest =>
    let (db1, _, evs) := dbExec eng db
      ("CREATE INDEX " ++ tbl ++ idx.nameStr ++ " ON " ++ tbl ++ " (" ++ idx.fldStr ++ ");") []
    let (db2, evs') := dbCreateIdxLoop eng db1 tbl rest
    (db2, evs ++ evs')

/-- `TableCreate` of `dbmap.go`: drop the table and its indexes, then
recreate them. -/
def dbTableCreate (eng : Eng) (db : DbSt) (arg : RecPtrArg) : DbSt × List Ev :=
  match db.err with
  | some _ => (db, [])
  | none =>
    let (db1, dsc) := dbDscFromPtr db arg false
    match db1.err with
    | some _ => (db1, [])
    | none =>
      let (db2, _, evs1) := dbExec eng db1 ("DROP TABLE IF EXISTS " ++ dsc.tblStr ++ ";") []
      let (db3, evs2) := dbDropIdxLoop eng db2 dsc.tblStr dsc.idxList
      match db3.err with
      | some _ => (db3, evs1 ++ evs2)
      | none =>
        let (db4, _, evs3) := dbExec eng db3
          ("CREATE TABLE " ++ dsc.tblStr ++ " (" ++ dsc.createNameTypeStr ++ ");") []
        let (db5, evs4) := dbCreateIdxLoop eng db4 dsc.tblStr dsc.idxList
        (db5, evs1 ++ evs2 ++ evs3 ++ evs4)

/-- `Update` of `dbmap.go`: wildcard expansion, argument marshaling by
`nameMap` lookup (an unmatched name yields the zero field, as in the
source), then one statement inside the open-if-needed transaction
discipline. -/
def dbUpdate (eng : Eng) (db : DbSt) (arg : RecPtrArg) (fldNames : List String) :
    DbSt × List Ev :=
  match db.err with
  | some _ => (db, [])
  | none =>
    if fldNames.length > 0 then
      let (db1, dsc) := dbDscFromPtr db arg true
      match db1.err with
      | some _ => (db1, [])
      | none =>
        let vals := match arg with
          | .ptr _ vs => vs
          | .nonPtr _ => []
        let names := if fldNames.headD "" = "*" then dsc.insertNameList else fldNames
        let eqList := names.map fun nm => nm ++ " = ?"
        let args := (names.map fun nm =>
            vals.getD (((dsc.nameMap.lookup nm).getD default).idx) 0)
          ++ [vals.getD dsc.idSf.idx 0]
        let (db2, evs1) := dbTransactBegin eng db1
        match db2.err with
        | some _ =>
          let (db3, evs2) := dbTransactEnd eng db2 false
          (db3, evs1 ++ evs2)
        | none =>
          let cmd := "UPDATE " ++ dsc.tblStr ++ " SET " ++ joinComma eqList ++
            " WHERE rowid = ?;"
          let (db3, _, evs2) := dbExec eng db2 cmd args
          let (db4, evs3) := dbTransactEnd eng db3 (db3.err = none)
          (db4, evs1 ++ evs2 ++ evs3)
    else
      (dbSetErrorf db "at least one field name expected in function Update", [])

/-- `Delete` of `dbmap.go`. -/
def dbDelete (eng : Eng) (db : DbSt) (arg : RecPtrArg) (tailStr : String)
    (prms : List Val) : DbSt × List Ev :=
  match db.err with
  | some _ => (db, [])
  | none =>
    let (db1, dsc) := dbDscFromPtr db arg false
    match db1.err with
    | some _ => (db1, [])
    | none =>
      let (db2, evs1) := dbTransactBegin eng db1
      match db2.err with
      | some _ =>
        let (db3, evs2) := dbTransactEnd eng db2 false
        (db3, evs1 ++ evs2)
      | none =>
        let cmd := "DELETE FROM " ++ dsc.tblStr ++ prePad tailStr ++ ";"
        let (db3, _, evs2) := dbExec eng db2 cmd prms
        let (db4, evs3) := dbTransactEnd eng db3 (db3.err = none)
        (db4, evs1 ++ evs2 ++ evs3)

/-- `Truncate` of `dbmap.go`. -/
def dbTruncate (eng : Eng) (db : DbSt) (arg : RecPtrArg) : DbSt × List Ev :=
  match db.err with
  | some _ => (db, [])
  | none =>
    let (db1, dsc) := dbDscFromPtr db arg false
    match db1.err with
    | some _ => (db1, [])
    | none =>
      let (db2, evs1) := dbTransactBegin eng db1
      match db2.err with
      | some _ =>
        let (db3, evs2) := dbTransactEnd eng db2 false
        (db3, evs1 ++ evs2)
      | none =>
        let cmd := "DELETE FROM " ++ dsc.tblStr ++ ";"
        let (db3, _, evs2) := dbExec eng db2 cmd []
        let (db4, evs3) := dbTransactEnd eng db3 (db3.err = none)
        (db4, evs1 ++ evs2 ++ evs3)

/-- The argument of `Insert`: a slice of records of a type, or a value of
another kind. -/
inductive InsArg where
  | slice (tp : GoType) (recs : List (List Val))
  | nonSlice (kindStr : String)
  deriving Repr, DecidableEq

/-- The insert command text built by `Insert` of `dbmap.go`. -/
def dbInsertCmd (dsc : DscG) : String :=
  "INSERT INTO " ++ dsc.tblStr ++ " (" ++ dsc.insertNameStr ++ ") VALUES (" ++
    dsc.qmStr ++ ");"

/-- The select command text built by `Retrieve` of `dbmap.go`. -/
def dbSelectCmd (dsc : DscG) (tailStr : String) : String :=
  "SELECT " ++ dsc.selNameStr ++ " FROM " ++ dsc.tblStr ++ prePad tailStr ++ ";"

/-- `valueInterfaceList`: the record's values for the insert fields in
declaration order. -/
def insArgsOf (dsc : DscG) (r : List Val) : List Val :=
  dsc.insertSfList.map fun sf => r.getD sf.idx 0

/-- The record loop of `Insert`: execute the prepared insert for each
record while no error is latched, writing the engine's last-insert
identifier back into the record's primary-key field.  Returns the updated
record list (unprocessed records unchanged). -/
def dbInsertLoop (eng : Eng) (cmd : String) (dsc : DscG) (db : DbSt) :
    List (List Val) → DbSt × List (List Val) × List Ev
  | [] => (db, [], [])
  | r :: rest =>
    match db.err with
    | some _ => (db, r :: rest, [])
    | none =>
      let vList := insArgsOf dsc r
      let (db1, res, evs) := dbExec eng db cmd vList
      match db1.err, res with
      | none, some (_, li) =>
        let r' := r.set dsc.idSf.idx li
        let (db2, rest', evs') := dbInsertLoop eng cmd dsc db1 rest
        (db2, r' :: rest', evs ++ evs')
      | _, _ => (db1, r :: rest, evs)

/-- `Insert` of `dbmap.go`: build the descriptor (primary key required),
begin a transaction if none is active, run the record loop, then
`transactEnd` with commit on success and rollback on failure. -/
def dbInsert (eng : Eng) (db : DbSt) (arg : InsArg) :
    DbSt × List (List Val) × List Ev :=
  match db.err with
  | some _ => (db, (match arg with | .slice _ rs => rs | .nonSlice _ => []), [])
  | none =>
    match arg with
    | .slice tp recs =>
      let (db1, dsc) := dbDscFromType db tp true
      match db1.err with
      | some _ => (db1, recs, [])
      | none =>
        let cmd := dbInsertCmd dsc
        let (db2, evs1) := dbTransactBegin eng db1
        let (db3, recs', evs2) := dbInsertLoop eng cmd dsc db2 recs
        let (db4, evs3) := dbTransactEnd eng db3 (db3.err = none)
        (db4, recs', evs1 ++ evs2 ++ evs3)
    | .nonSlice _ =>
      (dbSetErrorf db "function Insert requires slice as first argument", [], [])

/-- The argument of `Retrieve`: a pointer to a slice (with the slice's
current contents), a pointer to something else, or a non-pointer. -/
inductive RetrArg where
  | ptrSlice (tp : GoType) (prior : List (List Val))
  | ptrNonSlice (kindStr : String)
  | nonPtr (kindStr : String)
  deriving Repr, DecidableEq

/-- The zero record of a struct type (`reflect.New`). -/
def zeroRec : GoType → List Val
  | .structT s => List.replicate s.fields.length 0
  | .otherT _ => []

/-- `rows.Scan` into the shared buffer: write each scanned value into the
buffer at the position of the corresponding select field. -/
def applyScan (buf : List Val) : List GoField → List Val → List Val
  | [], _ => buf
  | _, [] => buf
  | sf :: sfs, v :: vs => applyScan (buf.set sf.idx v) sfs vs

/-- The row loop of `Retrieve`: scan each row into the shared buffer and
append a copy to the accumulated slice; the first scan failure latches the
error and the remaining rows are consumed without effect. -/
def dbRetrieveLoop (dsc : DscG) (db : DbSt) (buf : List Val)
    (acc : List (List Val)) : List RowRes → DbSt × List (List Val)
  | [] => (db, acc)
  | row :: rest =>
    match db.err with
    | some _ => dbRetrieveLoop dsc db buf acc rest
    | none =>
      match row with
      | .ok vals =>
        let buf' := applyScan buf dsc.selSfList vals
        dbRetrieveLoop dsc db buf' (acc ++ [buf']) rest
      | .error e => dbRetrieveLoop dsc { db with err := some e } buf acc rest

/-- `Retrieve` of `dbmap.go`: run the generated select, scan each row into
a buffer and append it to a local copy of the slice; the local copy is
written back to the caller's slice only when no error is latched, so on a
scan failure the caller's slice is left with its pre-call contents. -/
def dbRetrieve (eng : Eng) (db : DbSt) (arg : RetrArg) (tailStr : String)
    (prms : List Val) : DbSt × List (List Val) × List Ev :=
  match db.err with
  | some _ =>
    (db, (match arg with | .ptrSlice _ prior => prior | _ => []), [])
  | none =>
    match arg with
    | .ptrSlice tp prior =>
      let (db1, dsc) := dbDscFromType db tp false
      match db1.err with
      | some _ => (db1, prior, [])
      | none =>
        let cmd := dbSelectCmd dsc tailStr
        let (db2, rowsOpt, evs) := dbQuery eng db1 cmd prms
        match db2.err, rowsOpt with
        | none, some (rows, _) =>
          let (db3, acc) := dbRetrieveLoop dsc db2 (zeroRec tp) prior rows
          match db3.err with
          | none => (db3, acc, evs)
          | some _ => (db3, prior, evs)
        | _, _ => (db2, prior, evs)
    | .ptrNonSlice k =>
      (dbSetErrorf db ("function Retrieve expecting pointer to slice, got pointer to " ++ k), [], [])
    | .nonPtr k =>
      (dbSetErrorf db ("function Retrieve expecting pointer to slice, got " ++ k), [], [])

/-! ### The `WrapType` coordinator of `wrap.go`

The shared triple (`hnd`, `tx`, `errVal`) and the per-wrap statement and
query state are modelled together; the descriptor is a parameter of each
operation, as it is a field of the receiver in the source. -/

deriving instance DecidableEq for Except

/-- The state of a `WrapType` value (including its `shareType`). -/
structure WrapSt where
  errVal : Option String
  tx : Bool
  /-- the command text of the cached prepared insert statement, if any. -/
  insertSt : Option String
  /-- the pending query: remaining rows and the `rows.Err()` value. -/
  selRows : Option (List RowRes × Option String)
  /-- whether `sel.args` is non-nil. -/
  selArgsOk : Bool
  /-- the last `sql.Result` (rows affected, last insert id), if any. -/
  resLast : Option (Int × Int)
  deriving Repr, DecidableEq

/-- A fresh `WrapType` state as produced by `Wrap`. -/
def wrapInit : WrapSt :=
  { errVal := none, tx := false, insertSt := none, selRows := none,
    selArgsOk := false, resLast := none }

/-- `SetError` of `wrap.go`: a non-nil error is stored unconditionally,
replacing any latched error. -/
def wSetError (w : WrapSt) (e : Option String) : WrapSt :=
  match e with
  | none => w
  | some _ => { w with errVal := e }

/-- `SetErrorf` of `wrap.go`: stored only when no error is latched. -/
def wSetErrorf (w : WrapSt) (msg : String) : WrapSt :=
  if w.errVal = none then { w with errVal := some msg } else w

/-- `ClearError` of `wrap.go`. -/
def wClearError (w : WrapSt) : WrapSt :=
  { w with errVal := none }

/-- `InsertClear` of `wrap.go` (unguarded in the source). -/
def wInsertClear (w : WrapSt) : WrapSt :=
  { w with insertSt := none }

/-- `TransactionBegin` of `wrap.go`: latched-error guard, then the nested
check. -/
def wTransactionBegin (eng : Eng) (w : WrapSt) : WrapSt × List Ev :=
  match w.errVal with
  | some _ => (w, [])
  | none =>
    if w.tx then ({ w with errVal := some "nested transactions not supported" }, [])
    else
      match eng.beginOk with
      | none => ({ w with tx := true }, [.beginT])
      | some e => ({ w with errVal := some e }, [.beginT])

/-- `transactionEnd` of `wrap.go`: an open transaction is committed or
rolled back regardless of the latched error, the engine result being
discarded; without one, the no-transaction error is latched unless an
error already is. -/
def wTransactionEnd (w : WrapSt) (commit : Bool) : WrapSt × List Ev :=
  if w.tx then
    ({ w with tx := false }, [if commit then Ev.commitT else Ev.rollbackT])
  else
    if w.errVal = none then ({ w with errVal := some "no transaction to end" }, [])
    else (w, [])

/-- `TransactionEnd`: commit when no error is latched, else roll back. -/
def wTransactionEndAuto (w : WrapSt) : WrapSt × List Ev :=
  wTransactionEnd w (w.errVal = none)

/-- `TransactionCommit`. -/
def wTransactionCommit (w : WrapSt) : WrapSt × List Ev :=
  wTransactionEnd w true

/-- `TransactionRollback`. -/
def wTransactionRollback (w : WrapSt) : WrapSt × List Ev :=
  wTransactionEnd w false

/-- `insertOrReplace` of `wrap.go`: prepare (and cache) the insert
statement, marshal, execute, and write the assigned identifier back into
a pointer record.  Returns the state, the (possibly updated) record and
the engine calls. -/
def wInsertOrReplace (eng : Eng) (d : Dsc) (w : WrapSt) (isPtr : Bool)
    (rec : GoRec) (replace : Bool) : WrapSt × GoRec × List Ev :=
  match w.errVal with
  | some _ => (w, rec, [])
  | none =>
    let (w1, evs1) :=
      match w.insertSt with
      | some _ => (w, ([] : List Ev))
      | none =>
        let cmd := if replace then InsertOrReplaceStr d else InsertStr d
        match eng.prepOk cmd with
        | none => ({ w with insertSt := some cmd }, [.prepareC cmd])
        | some e => ({ w with insertSt := none, errVal := some e }, [.prepareC cmd])
    match w1.errVal, w1.insertSt with
    | none, some cmd =>
      match InsertArg d isPtr rec with
      | .ok (args, hasIdFnc) =>
        match eng.execRes cmd args with
        | .ok (ra, li) =>
          let w2 := { w1 with resLast := some (ra, li) }
          if hasIdFnc then
            (w2, { rec with flds := rec.flds.set d.idSf.idx li }, evs1 ++ [.execC cmd args])
          else (w2, rec, evs1 ++ [.execC cmd args])
        | .error e =>
          ({ w1 with errVal := some e }, rec, evs1 ++ [.execC cmd args])
      | .error e => ({ w1 with errVal := some e }, rec, evs1)
    | _, _ => (w1, rec, evs1)

/-- `Insert` of `wrap.go`. -/
def wInsert (eng : Eng) (d : Dsc) (w : WrapSt) (isPtr : Bool) (rec : GoRec) :
    WrapSt × GoRec × List Ev :=
  wInsertOrReplace eng d w isPtr rec false

/-- `InsertOrReplace` of `wrap.go`. -/
def wInsertOrReplaceOp (eng : Eng) (d : Dsc) (w : WrapSt) (isPtr : Bool)
    (rec : GoRec) : WrapSt × GoRec × List Ev :=
  wInsertOrReplace eng d w isPtr rec true

/-- `Update` of `wrap.go`: prepare the update statement, marshal with
`UpdateArg`, execute. -/
def wUpdate (eng : Eng) (d : Dsc) (w : WrapSt) (rec : GoRec)
    (fldNames : List String) : WrapSt × List Ev :=
  match w.errVal with
  | some _ => (w, [])
  | none =>
    let cmd := UpdateStr d fldNames
    match eng.prepOk cmd with
    | some e => ({ w with errVal := some e }, [.prepareC cmd])
    | none =>
      match UpdateArg d rec fldNames with
      | .ok args =>
        match eng.execRes cmd args with
        | .ok r => ({ w with resLast := some r }, [.prepareC cmd, .execC cmd args])
        | .error e => ({ w with errVal := some e }, [.prepareC cmd, .execC cmd args])
      | .error e => ({ w with errVal := some e }, [.prepareC cmd])

/-- The index loop of `Create` of `wrap.go`: each statement runs only
while no error is latched. -/
def wCreateIdxLoop (eng : Eng) (w : WrapSt) : List String → WrapSt × List Ev
  | [] => (w, [])
  | cmd :: rest =>
    match w.errVal with
    | some _ => wCreateIdxLoop eng w rest
    | none =>
      match eng.execRes cmd [] with
      | .ok _ =>
        let (w1, evs) := wCreateIdxLoop eng w rest
        (w1, .execC cmd [] :: evs)
      | .error e =>
        let (w1, evs) := wCreateIdxLoop eng { w with errVal := some e } rest
        (w1, .execC cmd [] :: evs)

/-- `Create` of `wrap.go`: the create statement, then one statement per
index group.  As in `CreateStr`, the order in which the source visits the
index groups (a Go map) is an explicit argument. -/
def wCreate (eng : Eng) (d : Dsc) (w : WrapSt) (entries : IdxMap) :
    WrapSt × List Ev :=
  match w.errVal with
  | some _ => (w, [])
  | none =>
    let (cmd, idxList) := CreateStr d entries
    match eng.execRes cmd [] with
    | .ok _ =>
      let (w1, evs) := wCreateIdxLoop eng w idxList
      (w1, .execC cmd [] :: evs)
    | .error e =>
      let (w1, evs) := wCreateIdxLoop eng { w with errVal := some e } idxList
      (w1, .execC cmd [] :: evs)

/-- `Delete` of `wrap.go`. -/
def wDelete (eng : Eng) (d : Dsc) (w : WrapSt) (tailStr : String)
    (args : List Val) : WrapSt × List Ev :=
  match w.errVal with
  | some _ => (w, [])
  | none =>
    let cmd := "DELETE FROM " ++ d.tblStr ++ prePad tailStr ++ ";"
    match eng.execRes cmd args with
    | .ok r => ({ w with resLast := some r }, [.execC cmd args])
    | .error e => ({ w with errVal := some e }, [.execC cmd args])

/-- `Query` of `wrap.go`: build the scan targets with `SelectArg`, then
run the select and store the pending rows for `Next`. -/
def wQuery (eng : Eng) (d : Dsc) (w : WrapSt) (isPtr : Bool) (rec : GoRec)
    (tailStr : String) (args : List Val) : WrapSt × List Ev :=
  match w.errVal with
  | some _ => (w, [])
  | none =>
    match SelectArg d isPtr rec with
    | .error e => ({ w with errVal := some e, selArgsOk := false }, [])
    | .ok _ =>
      let cmd := SelectStr d tailStr
      match eng.queryRes cmd args with
      | .ok (rows, rerr) =>
        ({ w with selArgsOk := true, selRows := some (rows, rerr) }, [.queryC cmd args])
      | .error e =>
        ({ w with selArgsOk := true, errVal := some e, selRows := none }, [.queryC cmd args])

/-- `QueryRow` of `wrap.go`: a self-contained single-row select; the
scan of the first row (or the no-rows error) lands in `errVal`. -/
def wQueryRow (eng : Eng) (d : Dsc) (w : WrapSt) (isPtr : Bool) (rec : GoRec)
    (tailStr : String) (args : List Val) : WrapSt × GoRec × List Ev :=
  match w.errVal with
  | some _ => (w, rec, [])
  | none =>
    match SelectArg d isPtr rec with
    | .error e => ({ w with errVal := some e }, rec, [])
    | .ok _ =>
      let cmd := SelectStr d tailStr
      match eng.queryRes cmd args with
      | .error e => ({ w with errVal := some e }, rec, [.queryC cmd args])
      | .ok ([], _) =>
        ({ w with errVal := some "sql: no rows in result set" }, rec, [.queryC cmd args])
      | .ok (.ok vals :: _, _) =>
        (w, { rec with flds := applyScan rec.flds d.selSfList vals }, [.queryC cmd args])
      | .ok (.error e :: _, _) =>
        ({ w with errVal := some e }, rec, [.queryC cmd args])

/-- `Next` of `wrap.go`: consume one pending row into the shared
destination record; `false` on exhaustion (latching `rows.Err()`) and on
failure. -/
def wNext (d : Dsc) (w : WrapSt) (rec : GoRec) : WrapSt × GoRec × Bool :=
  match w.errVal with
  | some _ => (w, rec, false)
  | none =>
    if w.selArgsOk then
      match w.selRows with
      | none => (w, rec, false)
      | some (rows, rerr) =>
        match rows with
        | [] =>
          ({ w with errVal := rerr, selRows := none, selArgsOk := false }, rec, false)
        | .ok vals :: rest =>
          ({ w with selRows := some (rest, rerr) },
           { rec with flds := applyScan rec.flds d.selSfList vals }, true)
        | .error e :: rest =>
          ({ w with errVal := some e, selRows := some (rest, rerr) }, rec, false)
    else (w, rec, false)

/-! ### Spec-level recomputations

These definitions follow the specification's wording and are compared
with the source-derived definitions above in refinement-style claims. -/

/-- The select-list contribution of one field according to the field loop
of `describe`: a managed field contributes its resolved column name, the
primary-key field contributes the `rowid` alias, any other field
contributes nothing. -/
def fieldSelCols (f : GoField) : List String :=
  if f.tagDb.length > 0 then [if f.tagDb = "*" then f.name else f.tagDb]
  else if f.tagDbPrimary.length > 0 then ["rowid"] else []

/-- The concatenated select-list contributions in declaration order. -/
def selCols (fs : List GoField) : List String :=
  (fs.map fieldSelCols).flatten

/-- The managed-column contribution of one field: its resolved column
name when its `db` tag is non-empty. -/
def fieldInsCols (f : GoField) : List String :=
  if f.tagDb.length > 0 then [if f.tagDb = "*" then f.name else f.tagDb] else []

/-- The managed-column names in declaration order. -/
def insCols (fs : List GoField) : List String :=
  (fs.map fieldInsCols).flatten

/-- Whether a field is processed as the primary key by the field loop:
its `db` tag is empty and its `db_primary` tag is not. -/
def fieldIsPk (f : GoField) : Bool :=
  f.tagDb.length = 0 && f.tagDbPrimary.length > 0

/-- Modelled from the spec: the index-segment pattern as the claim words
it, a non-empty all-non-digit prefix followed directly by a non-empty
all-digit suffix. -/
def claimIdxPattern (s : String) : Bool :=
  (List.range s.data.length).any fun k =>
    decide (k ≠ 0) && (s.data.take k).all (fun c => !goDigit c) &&
      (s.data.drop k).all goDigit

/-- Replace the `db_primary` tag of a field. -/
def setPrimaryTag (f : GoField) (p : String) : GoField :=
  { f with tagDbPrimary := p }

/-! ### Concrete fixtures

A record type in the style of the repository's examples, with the
primary-key field declared second so that its position in the select list
is observable, and with two index groups. -/

/-- Field `A int64` with tag `db:"a"`. -/
def fldA : GoField := ⟨"A", "a", "", "", "", "int64", "int64", 0⟩

/-- Field `ID int64` with tags `db_primary:"*" db_table:"rec"`, declared
second. -/
def fldID : GoField := ⟨"ID", "", "*", "rec", "", "int64", "int64", 1⟩

/-- Field `B string` with tags `db:"b" db_index:"g1,h2"`. -/
def fldB : GoField := ⟨"B", "b", "", "", "g1,h2", "string", "string", 2⟩

/-- The fixture struct type. -/
def sEx : GoStruct := ⟨"recType", [fldA, fldID, fldB]⟩

/-- The fixture type. -/
def tpEx : GoType := .structT sEx

/-- The fixture descriptor, as built by `describe`. -/
def dscEx : Dsc := (describe tpEx).toOption.getD default

/-- The fixture record value `{A := 10, ID := 20, B := 30}`. -/
def recEx : GoRec := ⟨"recType", [10, 20, 30]⟩

/-- An engine whose `queryRes` produces one well-scanned row and then a
row whose scan fails. -/
def engScanFail : Eng :=
  { engOk with queryRes := fun _ _ => .ok ([.ok [1, 2, 3], .error "boom"], none) }

/-- An engine whose `execRes` fails exactly on the argument list
`[7, 8]`. -/
def engExecFailOn78 : Eng :=
  { engOk with
    execRes := fun _ args => if args = [7, 8] then .error "constraint" else .ok (1, 42) }

/-- A `DbType` state with a transaction opened by the caller. -/
def dbTxOpen : DbSt := { dbInit with tx := true }

/-- A `DbType` state with a latched error. -/
def dbErrSt : DbSt := { dbInit with err := some "latched" }

/-- A `WrapType` state with a latched error. -/
def wErrSt : WrapSt := { wrapInit with errVal := some "first" }

/-- A `WrapType` state with an open transaction. -/
def wTxOpen : WrapSt := { wrapInit with tx := true }

/-- A `bool` field carrying all of `db:"*"`, `db_primary:"*"` and
`db_table:"g"`, in the style of `gType` of the repository's coverage
test. -/
def fldW : GoField := ⟨"Val1", "*", "*", "g", "", "bool", "bool", 0⟩

/-- Is an engine call a transaction begin? -/
def isBeginEv : Ev → Bool
  | .beginT => true
  | _ => false

/-- Is an engine call a commit or rollback? -/
def isEndEv : Ev → Bool
  | .commitT => true
  | .rollbackT => true
  | _ => false

/-- Is an engine call a statement execution? -/
def isExecEv : Ev → Bool
  | .execC _ _ => true
  | _ => false

/-- The records written into the shared scan buffer by a run of
successful scans, one buffer snapshot per row: the reference description
of the row loop of `Retrieve`. -/
def scansFrom (dsc : DscG) (buf : List Val) : List (List Val) → List (List Val)
  | [] => []
  | vals :: rest =>
    let buf' := applyScan buf dsc.selSfList vals
    buf' :: scansFrom dsc buf' rest

/-! ## Theorems -/

/-! ### Wildcard expansion (claim C9) -/

theorem updateNames_self (d : Dsc) :
    updateNames d d.insertNameList = d.insertNameList := by
  unfold updateNames
  by_cases h : d.insertNameList.length = 0 <;> simp [h]

theorem updateNames_nil (d : Dsc) : updateNames d [] = d.insertNameList := by
  simp [updateNames]

theorem updateNames_star (d : Dsc) (rest : List String) :
    updateNames d ("*" :: rest) = d.insertNameList := by
  simp [updateNames]

/-- C9: for every descriptor, the update text generator and the update
argument marshaler treat an omitted field-name list, and a list whose
first element is the wildcard, exactly as the full managed-column name
list in declaration order. -/
theorem c9_wildcard_equals_full (d : Dsc) (rec : GoRec) (rest : List String) :
    UpdateStr d [] = UpdateStr d d.insertNameList ∧
    UpdateStr d ("*" :: rest) = UpdateStr d d.insertNameList ∧
    UpdateArg d rec [] = UpdateArg d rec d.insertNameList ∧
    UpdateArg d rec ("*" :: rest) = UpdateArg d rec d.insertNameList := by
  refine ⟨?_, ?_, ?_, ?_⟩ <;>
    simp [UpdateStr, UpdateArg, updateNames_nil, updateNames_star, updateNames_self]

/-! ### Update argument marshaling (claim C8) -/

theorem updateArgLoop_all_known (d : Dsc) (rec : GoRec) (ns : List String)
    (acc : List Val) (h : ∀ nm ∈ ns, (d.nameMap.lookup nm).isSome) :
    updateArgLoop d rec ns acc =
      .ok (acc ++ ns.map fun nm =>
        rec.flds.getD ((d.nameMap.lookup nm).getD default).idx 0) := by
  induction ns generalizing acc with
  | nil => simp [updateArgLoop]
  | cons nm rest ih =>
    obtain ⟨sf, hsf⟩ := Option.isSome_iff_exists.mp (h nm (by simp))
    simp only [updateArgLoop, hsf]
    rw [ih _ (fun x hx => h x (by simp [hx]))]
    simp [hsf, List.append_assoc]

theorem updateArgLoop_first_unknown (d : Dsc) (rec : GoRec) (pre : List String)
    (nm : String) (post : List String) (acc : List Val)
    (hpre : ∀ x ∈ pre, (d.nameMap.lookup x).isSome)
    (hnm : d.nameMap.lookup nm = none) :
    updateArgLoop d rec (pre ++ nm :: post) acc =
      .error ("field name \"" ++ nm ++ "\" not in structure") := by
  induction pre generalizing acc with
  | nil => simp [updateArgLoop, hnm]
  | cons x xs ih =>
    obtain ⟨sf, hsf⟩ := Option.isSome_iff_exists.mp (hpre x (by simp))
    rw [List.cons_append]
    simp only [updateArgLoop, hsf]
    exact ih _ (fun y hy => hpre y (by simp [hy]))

/-- C8: update argument marshaling fails with the missing-primary-key
error when the descriptor has no primary key; with the type-mismatch
error when the record's type is not the descriptor's; with the
unknown-column error naming the first requested name that is not a
managed column; and otherwise returns the requested field values in
request order followed by the primary-key value. -/
theorem c8_updateArg_marshaling (d : Dsc) (rec : GoRec) (fldNames : List String) :
    (d.idPresent = false →
      UpdateArg d rec fldNames = .error "update requires structure with primary ID") ∧
    (d.idPresent = true → rec.tpStr ≠ d.recTpStr →
      UpdateArg d rec fldNames =
        .error ("value passed into update must be a structure (or pointer to a structure) of type "
          ++ d.recTpStr)) ∧
    (d.idPresent = true → rec.tpStr = d.recTpStr →
      ∀ pre nm post, updateNames d fldNames = pre ++ nm :: post →
        (∀ x ∈ pre, (d.nameMap.lookup x).isSome) →
        d.nameMap.lookup nm = none →
        UpdateArg d rec fldNames =
          .error ("field name \"" ++ nm ++ "\" not in structure")) ∧
    (d.idPresent = true → rec.tpStr = d.recTpStr →
      (∀ nm ∈ updateNames d fldNames, (d.nameMap.lookup nm).isSome) →
      UpdateArg d rec fldNames =
        .ok ((updateNames d fldNames).map
              (fun nm => rec.flds.getD ((d.nameMap.lookup nm).getD default).idx 0)
            ++ [rec.flds.getD d.idSf.idx 0])) := by
  refine ⟨fun h => ?_, fun h1 h2 => ?_, fun h1 h2 pre nm post hsplit hpre hnm => ?_,
    fun h1 h2 hall => ?_⟩
  · simp [UpdateArg, h]
  · simp [UpdateArg, h1, h2]
  · rw [UpdateArg]
    simp only [h1, h2, if_true]
    rw [hsplit, updateArgLoop_first_unknown d rec pre nm post [] hpre hnm]
  · rw [UpdateArg]
    simp only [h1, h2, if_true]
    rw [updateArgLoop_all_known d rec _ [] hall]
    simp

/-- Witness for C8 at the fixture descriptor: requesting column `b` of a
matching record yields its value followed by the primary-key value. -/
theorem c8_witness :
    UpdateArg dscEx recEx ["b"] =
      .ok ((updateNames dscEx ["b"]).map
            (fun nm => recEx.flds.getD ((dscEx.nameMap.lookup nm).getD default).idx 0)
          ++ [recEx.flds.getD dscEx.idSf.idx 0]) :=
  (c8_updateArg_marshaling dscEx recEx ["b"]).2.2.2 (by decide) (by decide)
    (by decide)

/-! ### Determinism of the text generators (claim C4) -/

/-- C4 amended: the create-table statement of `CreateStr` does not depend
on the order in which the index groups are visited, and the returned
index-statement list is determined up to permutation: two executions
whose visit orders are permutations of one another return permuted
lists.  (The other generators are plain functions of the descriptor and
their arguments in this embedding, hence deterministic; `CreateStr`
alone ranges over a Go map, whose iteration order varies from call to
call.) -/
theorem c4_createStr_deterministic_up_to_perm (d : Dsc) (e1 e2 : IdxMap)
    (h : e1.Perm e2) :
    (CreateStr d e1).1 = (CreateStr d e2).1 ∧
    ((CreateStr d e1).2).Perm ((CreateStr d e2).2) :=
  ⟨rfl, h.map _⟩

/-- Witness for the amended C4 at the fixture descriptor and the reversed
visit order. -/
theorem c4_witness :
    ((CreateStr dscEx dscEx.idxMap).2).Perm
      ((CreateStr dscEx dscEx.idxMap.reverse).2) :=
  (c4_createStr_deterministic_up_to_perm dscEx dscEx.idxMap dscEx.idxMap.reverse
    (dscEx.idxMap.reverse_perm).symm).2

/-- Counterexample to C4 as stated: on the fixture descriptor, which has
the two index groups `g` and `h`, two valid executions of `CreateStr`
(visiting the Go map in its two possible orders) return index-statement
lists that are not byte-identical. -/
theorem c4_counterexample :
    (dscEx.idxMap).Perm (dscEx.idxMap.reverse) ∧
    (CreateStr dscEx dscEx.idxMap).2 ≠ (CreateStr dscEx dscEx.idxMap.reverse).2 := by
  exact ⟨(dscEx.idxMap.reverse_perm).symm, by decide⟩

/-! ### The select-list layout (claim C5) -/

theorem describeField_errAbsorb (st : BuildSt) (sf : GoField)
    (h : st.err.isSome = true) : describeField st sf = st := by
  simp [describeField, h]

theorem tableStep_errAbsorb (st : BuildSt) (sf : GoField)
    (h : st.err.isSome = true) : tableStep st sf = st := by
  simp [tableStep, h]

theorem tableStep_keeps (st : BuildSt) (sf : GoField) :
    (tableStep st sf).selList = st.selList ∧
    (tableStep st sf).dsc.insertNameList = st.dsc.insertNameList ∧
    (tableStep st sf).dsc.idPresent = st.dsc.idPresent := by
  unfold tableStep
  by_cases h1 : st.err.isSome = true
  · simp [h1]
  · simp only [if_neg h1]
    by_cases h2 : sf.tagDbTable.length > 0
    · by_cases h3 : st.dsc.tblStr.length = 0 <;> simp [h2, h3]
    · simp [h2]

/-- The effect of one successful `describe` field iteration on the select
list, the managed-column list and the primary-key flag. -/
theorem describeField_step (st : BuildSt) (sf : GoField)
    (h : st.err = none) (h2 : (describeField st sf).err = none) :
    (describeField st sf).selList = st.selList ++ fieldSelCols sf ∧
    (describeField st sf).dsc.insertNameList = st.dsc.insertNameList ++ fieldInsCols sf ∧
    (describeField st sf).dsc.idPresent = (st.dsc.idPresent || fieldIsPk sf) := by
  have hs : st.err.isSome = false := by simp [h]
  rw [describeField] at h2 ⊢
  simp only [hs, Bool.false_eq_true, if_false] at h2 ⊢
  by_cases hdb : sf.tagDb.length > 0
  · simp only [if_pos hdb] at h2 ⊢
    have hpkf : fieldIsPk sf = false := by
      simp [fieldIsPk, Nat.pos_iff_ne_zero.mp hdb]
    cases htm : typeMap sf.typeStr with
    | none =>
      rw [htm] at h2
      rw [tableStep_errAbsorb _ _ (by simp)] at h2
      simp at h2
    | some ts =>
      rw [htm] at h2
      dsimp only at h2 ⊢
      rcases hpi : processIndex sf.tagDbIndex sf.name st.dsc.idxMap with ⟨m, ie⟩
      rw [hpi] at h2
      dsimp only at h2 ⊢
      cases ie with
      | none =>
        refine ⟨?_, ?_, ?_⟩
        · rw [(tableStep_keeps _ sf).1]; simp [fieldSelCols, hdb]
        · rw [(tableStep_keeps _ sf).2.1]; simp [fieldInsCols, hdb]
        · rw [(tableStep_keeps _ sf).2.2]; simp [hpkf]
      | some e =>
        rw [tableStep_errAbsorb _ _ (by simp)] at h2
        simp at h2
  · simp only [if_neg hdb] at h2 ⊢
    have hdb0 : sf.tagDb.length = 0 := Nat.eq_zero_of_not_pos hdb
    by_cases hpk : sf.tagDbPrimary.length > 0
    · simp only [if_pos hpk] at h2 ⊢
      cases hip : st.dsc.idPresent with
      | false =>
        rw [hip] at h2
        simp only [Bool.not_false, if_true] at h2 ⊢
        by_cases hk : sf.kindStr = "int64"
        · simp only [if_pos hk] at h2 ⊢
          refine ⟨?_, ?_, ?_⟩
          · rw [(tableStep_keeps _ sf).1]; simp [fieldSelCols, hdb0, hpk]
          · rw [(tableStep_keeps _ sf).2.1]; simp [fieldInsCols, hdb0]
          · rw [(tableStep_keeps _ sf).2.2]; simp [fieldIsPk, hdb0, hpk]
        · simp only [if_neg hk] at h2
          rw [tableStep_errAbsorb _ _ (by simp)] at h2
          simp at h2
      | true =>
        rw [hip] at h2
        simp only [Bool.not_true, Bool.false_eq_true, if_false] at h2
        rw [tableStep_errAbsorb _ _ (by simp)] at h2
        simp at h2
    · simp only [if_neg hpk] at h2 ⊢
      have hpk0 : sf.tagDbPrimary.length = 0 := Nat.eq_zero_of_not_pos hpk
      obtain ⟨k1, k2, k3⟩ := tableStep_keeps st sf
      refine ⟨?_, ?_, ?_⟩
      · rw [k1]; simp [fieldSelCols, hdb0, hpk0]
      · rw [k2]; simp [fieldInsCols, hdb0]
      · rw [k3]; simp [fieldIsPk, hpk0]

theorem describeFold_errAbsorb (fs : List GoField) (st : BuildSt)
    (h : st.err.isSome = true) : fs.foldl describeField st = st := by
  induction fs with
  | nil => rfl
  | cons f rest ih => rw [List.foldl_cons, describeField_errAbsorb st f h]; exact ih

/-- The cumulative effect of the `describe` field loop on the select
list, the managed-column list and the primary-key flag, provided the loop
finishes without error. -/
theorem describeFold_step (fs : List GoField) (st : BuildSt)
    (h2 : (fs.foldl describeField st).err = none) :
    st.err = none ∧
    (fs.foldl describeField st).selList = st.selList ++ selCols fs ∧
    (fs.foldl describeField st).dsc.insertNameList =
      st.dsc.insertNameList ++ insCols fs ∧
    (fs.foldl describeField st).dsc.idPresent =
      (st.dsc.idPresent || fs.any fieldIsPk) := by
  induction fs generalizing st with
  | nil => exact ⟨h2, by simp [selCols], by simp [insCols], by simp⟩
  | cons f rest ih =>
    rw [List.foldl_cons] at h2
    obtain ⟨h1, hsel, hins, hid⟩ := ih (describeField st f) h2
    have h0 : st.err = none := by
      rcases he : st.err with _ | e
      · simp [he]
      · rw [describeField_errAbsorb st f (by simp [he])] at h1
        simp [he] at h1
    obtain ⟨s1, s2, s3⟩ := describeField_step st f h0 h1
    refine ⟨h0, ?_, ?_, ?_⟩
    · rw [List.foldl_cons, hsel, s1, List.append_assoc]
      simp [selCols]
    · rw [List.foldl_cons, hins, s2, List.append_assoc]
      simp [insCols]
    · rw [List.foldl_cons, hid, s3]
      simp [Bool.or_assoc]

theorem fieldSelCols_eq_insCols (f : GoField) (h : fieldIsPk f = false) :
    fieldSelCols f = fieldInsCols f := by
  unfold fieldSelCols fieldInsCols
  by_cases hdb : f.tagDb.length > 0
  · simp [hdb]
  · have hdb0 : f.tagDb.length = 0 := Nat.eq_zero_of_not_pos hdb
    have hpk0 : ¬f.tagDbPrimary.length > 0 := by
      intro hp
      rw [fieldIsPk] at h
      simp [hdb0, hp] at h
    simp [hdb, hpk0]

theorem selCols_eq_insCols (fs : List GoField) (h : fs.any fieldIsPk = false) :
    selCols fs = insCols fs := by
  induction fs with
  | nil => rfl
  | cons f rest ih =>
    rw [List.any_cons, Bool.or_eq_false_iff] at h
    have hrest := ih h.2
    simp only [selCols, insCols, List.map_cons, List.flatten_cons] at hrest ⊢
    rw [fieldSelCols_eq_insCols f h.1, hrest]

/-- C5 amended: for a successfully described record type, the select list
is the concatenation of the per-field contributions in declaration order,
where a managed field contributes its column name and the primary-key
field contributes the `rowid` alias at its own declaration position (not
necessarily first); the tail fragment follows after a separating space
when non-empty; and for types without a primary key the list is exactly
the managed columns in declaration order. -/
theorem c5_select_list_layout (s : GoStruct) (d : Dsc) (t : String)
    (h : describe (.structT s) = .ok d) :
    d.selNameStr = joinComma (selCols s.fields) ∧
    SelectStr d t =
      "SELECT " ++ joinComma (selCols s.fields) ++ " FROM " ++ d.tblStr ++
        prePad t ++ ";" ∧
    (s.fields.any fieldIsPk = false →
      d.selNameStr = joinComma (insCols s.fields)) := by
  simp only [describe] at h
  cases he : (s.fields.foldl describeField (buildInit s.nameStr)).err with
  | some e => rw [he] at h; simp at h
  | none =>
    rw [he] at h
    obtain ⟨h0, hsel, hins, hid⟩ :=
      describeFold_step s.fields (buildInit s.nameStr) he
    by_cases hz : (s.fields.foldl describeField (buildInit s.nameStr)).dsc.insertSfList.length = 0
    · simp [hz] at h
    · by_cases ht : (s.fields.foldl describeField (buildInit s.nameStr)).dsc.tblStr.length = 0
      · simp [hz, ht] at h
      · rw [if_neg hz, if_neg ht, Except.ok.injEq] at h
        subst h
        have hsel' : (s.fields.foldl describeField (buildInit s.nameStr)).selList
            = selCols s.fields := by
          rw [hsel]; simp [buildInit]
        refine ⟨by simp [hsel'], by simp [SelectStr, hsel'], fun hno => ?_⟩
        rw [← selCols_eq_insCols s.fields hno]
        simp [hsel']

/-- Witness for the amended C5 at the fixture type, whose primary-key
field is declared second. -/
theorem c5_witness :
    dscEx.selNameStr = joinComma (selCols sEx.fields) ∧
    SelectStr dscEx "" =
      "SELECT " ++ joinComma (selCols sEx.fields) ++ " FROM " ++ dscEx.tblStr ++
        prePad "" ++ ";" ∧
    (sEx.fields.any fieldIsPk = false →
      dscEx.selNameStr = joinComma (insCols sEx.fields)) :=
  c5_select_list_layout sEx dscEx "" (by decide)

/-- Counterexample to C5 as stated: on the fixture type, whose
primary-key field is declared between the managed fields `a` and `b`, the
generated select text lists `rowid` second, not first as the claim
requires. -/
theorem c5_counterexample :
    describe tpEx = .ok dscEx ∧
    SelectStr dscEx "" = "SELECT a, rowid, b FROM rec;" ∧
    SelectStr dscEx "" ≠ "SELECT rowid, a, b FROM rec;" :=
  ⟨by decide, by decide, by decide⟩

/-! ### The index-tag mini-language (claim C6) -/

theorem tryCD_sound (r c : List Char) (h : tryCD r = some c) :
    c ≠ [] ∧ c.all (fun ch => !goSpace ch) = true ∧
    ∃ d, r = c ++ d ∧ d.all goSpace = true := by
  simp only [tryCD] at h
  by_cases he : (r.takeWhile fun ch => !goSpace ch).isEmpty
  · simp [he] at h
  · rw [if_neg he] at h
    by_cases hd : (r.dropWhile fun ch => !goSpace ch).all goSpace
    · rw [if_pos hd, Option.some.injEq] at h
      subst h
      refine ⟨by simpa [List.isEmpty_iff] using he, ?_,
        r.dropWhile fun ch => !goSpace ch, ?_, hd⟩
      · rw [List.all_eq_true]
        intro x hx
        exact List.mem_takeWhile_imp (p := fun ch => !goSpace ch) hx
      · rw [List.takeWhile_append_dropWhile]
    · rw [if_neg hd] at h
      cases h

theorem tryB_sound (n : Nat) (u b c : List Char) (h : tryB n u = some (b, c)) :
    b ≠ [] ∧ b.all (fun ch => !goDigit ch) = true ∧
    c ≠ [] ∧ c.all (fun ch => !goSpace ch) = true ∧
    ∃ d, u = b ++ c ++ d ∧ d.all goSpace = true := by
  induction n with
  | zero => simp [tryB] at h
  | succ n ih =>
    rw [tryB] at h
    by_cases hb : (u.take (n + 1)).all (fun ch => !goDigit ch)
    · rw [if_pos hb] at h
      cases hcd : tryCD (u.drop (n + 1)) with
      | some c' =>
        rw [hcd, Option.some.injEq, Prod.mk.injEq] at h
        obtain ⟨rfl, rfl⟩ := h
        obtain ⟨hc1, hc2, d, hd1, hd2⟩ := tryCD_sound _ _ hcd
        have hu : u ≠ [] := by
          intro hnil
          subst hnil
          simp at hd1
          exact hc1 hd1.1
        refine ⟨?_, hb, hc1, hc2, d, ?_, hd2⟩
        · simp [List.take_eq_nil_iff, hu]
        · rw [List.append_assoc, ← hd1, List.take_append_drop]
      | none =>
        rw [hcd] at h
        exact ih h
    · rw [if_neg hb] at h
      exact ih h

theorem tryA_sound (k : Nat) (s b c : List Char) (h : tryA k s = some (b, c)) :
    b ≠ [] ∧ b.all (fun ch => !goDigit ch) = true ∧
    c ≠ [] ∧ c.all (fun ch => !goSpace ch) = true ∧
    ∃ a d, s = a ++ b ++ c ++ d ∧ a.all goSpace = true ∧ d.all goSpace = true := by
  induction k with
  | zero =>
    rw [tryA] at h
    obtain ⟨b1, b2, c1, c2, d, hd1, hd2⟩ := tryB_sound _ _ _ _ h
    exact ⟨b1, b2, c1, c2, [], d, by simpa [List.append_assoc] using hd1, by simp, hd2⟩
  | succ k ih =>
    rw [tryA] at h
    by_cases ha : (s.take (k + 1)).all goSpace
    · rw [if_pos ha] at h
      cases htb : tryB (s.drop (k + 1)).length (s.drop (k + 1)) with
      | some bc =>
        rw [htb, Option.some.injEq] at h
        subst h
        obtain ⟨b1, b2, c1, c2, d, hd1, hd2⟩ := tryB_sound _ _ _ _ htb
        refine ⟨b1, b2, c1, c2, s.take (k + 1), d, ?_, ha, hd2⟩
        rw [List.append_assoc, List.append_assoc, ← List.append_assoc b,
          ← hd1, List.take_append_drop]
      | none =>
        rw [htb] at h
        exact ih h
    · rw [if_neg ha] at h
      exact ih h

theorem goIdxMatch_sound (s pre suf : String)
    (h : goIdxMatch s = some (pre, suf)) :
    pre.data ≠ [] ∧ pre.data.all (fun ch => !goDigit ch) = true ∧
    suf.data ≠ [] ∧ suf.data.all (fun ch => !goSpace ch) = true ∧
    ∃ a d, s.data = a ++ pre.data ++ suf.data ++ d ∧
      a.all goSpace = true ∧ d.all goSpace = true := by
  unfold goIdxMatch at h
  cases hm : tryA (s.data.takeWhile goSpace).length s.data with
  | none => rw [hm] at h; cases h
  | some bc =>
    obtain ⟨b, c⟩ := bc
    rw [hm, Option.some.injEq, Prod.mk.injEq] at h
    obtain ⟨h1, h2⟩ := h
    subst h1
    subst h2
    exact tryA_sound _ _ _ _ hm

theorem processSegs_fail (fldStr : String) (segs : List String) (m : IdxMap)
    (h : (processSegs fldStr segs m).2.isSome = true) :
    ∃ s ∈ segs, goIdxMatch s = none ∧
      (processSegs fldStr segs m).2 = some ("malformed index tag: " ++ s) := by
  induction segs generalizing m with
  | nil => simp [processSegs] at h
  | cons s rest ih =>
    cases hm : goIdxMatch s with
    | some p =>
      obtain ⟨pre, suf⟩ := p
      rw [processSegs, hm] at h ⊢
      obtain ⟨s', hs1, hs2, hs3⟩ := ih _ h
      exact ⟨s', by simp [hs1], hs2, hs3⟩
    | none =>
      refine ⟨s, by simp, hm, ?_⟩
      rw [processSegs, hm]

theorem mem_idxInsert (e x : IdxEntry) (l : List IdxEntry) :
    x ∈ idxInsert e l ↔ x = e ∨ x ∈ l := by
  induction l with
  | nil => simp [idxInsert]
  | cons y ys ih =>
    by_cases h : e.nameStr < y.nameStr
    · simp [idxInsert, h]
    · simp [idxInsert, h, ih]
      tauto

theorem idxInsert_sorted (e : IdxEntry) (l : List IdxEntry)
    (h : l.Pairwise (fun a b : IdxEntry => a.nameStr ≤ b.nameStr)) :
    (idxInsert e l).Pairwise (fun a b : IdxEntry => a.nameStr ≤ b.nameStr) := by
  induction l with
  | nil => simp [idxInsert]
  | cons x xs ih =>
    rw [List.pairwise_cons] at h
    by_cases hlt : e.nameStr < x.nameStr
    · rw [idxInsert, if_pos hlt]
      refine List.pairwise_cons.mpr ⟨?_, List.pairwise_cons.mpr h⟩
      intro y hy
      rcases List.mem_cons.mp hy with rfl | hy'
      · exact le_of_lt hlt
      · exact le_trans (le_of_lt hlt) (h.1 y hy')
    · rw [idxInsert, if_neg hlt]
      refine List.pairwise_cons.mpr ⟨?_, ih h.2⟩
      intro y hy
      rcases (mem_idxInsert e y xs).mp hy with rfl | hy'
      · exact le_of_not_lt hlt
      · exact h.1 y hy'

theorem idxSort_sorted (l : List IdxEntry) :
    (idxSort l).Pairwise (fun a b : IdxEntry => a.nameStr ≤ b.nameStr) := by
  induction l with
  | nil => simp [idxSort]
  | cons x xs ih => exact idxInsert_sorted x (idxSort xs) ih

theorem describe_idxMap_sorted (tp : GoType) (d : Dsc) (h : describe tp = .ok d)
    (k : String) (l : List IdxEntry) (hmem : (k, l) ∈ d.idxMap) :
    l.Pairwise (fun a b : IdxEntry => a.nameStr ≤ b.nameStr) := by
  cases tp with
  | otherT kd => simp [describe] at h
  | structT s =>
    simp only [describe] at h
    cases he : (s.fields.foldl describeField (buildInit s.nameStr)).err with
    | some e => rw [he] at h; simp at h
    | none =>
      rw [he] at h
      by_cases hz : (s.fields.foldl describeField (buildInit s.nameStr)).dsc.insertSfList.length = 0
      · simp [hz] at h
      · by_cases ht : (s.fields.foldl describeField (buildInit s.nameStr)).dsc.tblStr.length = 0
        · simp [hz, ht] at h
        · rw [if_neg hz, if_neg ht, Except.ok.injEq] at h
          subst h
          simp only [List.mem_map] at hmem
          obtain ⟨p, _, hp⟩ := hmem
          rw [Prod.mk.injEq] at hp
          rw [← hp.2]
          exact idxSort_sorted p.2

/-- C6 amended: the describe step splits an index-group annotation on
commas; a segment that the pattern accepts decomposes into optional
whitespace, a non-empty non-digit group-name capture and a non-empty
non-whitespace sequence capture followed by optional whitespace (the
sequence part need not be digits), and the pair (sequence, field name) is
appended to the group named by the first capture; a segment the pattern
rejects makes processing fail with the malformed-index-tag error; after a
successful describe every group is sorted by its sequence captures. -/
theorem c6_index_tag_processing :
    (∀ s pre suf, goIdxMatch s = some (pre, suf) →
      pre.data ≠ [] ∧ pre.data.all (fun ch => !goDigit ch) = true ∧
      suf.data ≠ [] ∧ suf.data.all (fun ch => !goSpace ch) = true ∧
      ∃ a d, s.data = a ++ pre.data ++ suf.data ++ d ∧
        a.all goSpace = true ∧ d.all goSpace = true) ∧
    (∀ fldStr s rest m pre suf, goIdxMatch s = some (pre, suf) →
      processSegs fldStr (s :: rest) m =
        processSegs fldStr rest (idxMapAppend m pre ⟨suf, fldStr⟩)) ∧
    (∀ fldStr segs m, (processSegs fldStr segs m).2.isSome = true →
      ∃ s ∈ segs, goIdxMatch s = none ∧
        (processSegs fldStr segs m).2 = some ("malformed index tag: " ++ s)) ∧
    (∀ tp d, describe tp = .ok d → ∀ k l, (k, l) ∈ d.idxMap →
      l.Pairwise (fun a b : IdxEntry => a.nameStr ≤ b.nameStr)) := by
  refine ⟨goIdxMatch_sound, ?_, processSegs_fail, ?_⟩
  · intro fldStr s rest m pre suf hm
    rw [processSegs, hm]
  · intro tp d h k l hmem
    exact describe_idxMap_sorted tp d h k l hmem

/-- Witness for the amended C6: the fixture type's tag `g1,h2` yields the
sorted singleton group `g`. -/
theorem c6_witness :
    ("g", [⟨"1", "B"⟩]) ∈ dscEx.idxMap ∧
    List.Pairwise (fun a b : IdxEntry => a.nameStr ≤ b.nameStr)
      ([⟨"1", "B"⟩] : List IdxEntry) :=
  ⟨by decide,
   c6_index_tag_processing.2.2.2 tpEx dscEx (by decide) "g" [⟨"1", "B"⟩] (by decide)⟩

/-- Counterexample to C6 as stated: the segment `ab` has no digit suffix,
so by the claim it should fail with the malformed-index-tag error, but
`processIndex` accepts it, filing `(b, FldName)` under group `a` (the
sequence capture is the non-digit `b`, and the stored pair carries the Go
field name, not the column name). -/
theorem c6_counterexample :
    claimIdxPattern "ab" = false ∧
    (processIndex "ab" "FldName" []).2 = none ∧
    (processIndex "ab" "FldName" []).1 =
      [("a", [⟨"b", "FldName"⟩])] := by
  decide

/-! ### Managed fields and the `db_primary` tag (claim C10)

A caveat on granularity: the descriptor stores the `reflect.StructField`
itself (in `nameMap` and the field lists), and the struct field carries
its whole tag string, so the built descriptor is not literally invariant
under a change of the `db_primary` tag of a managed field.  What the
claim asserts — and what is proved — is that the tag is never examined:
every component of the loop state that does not embed a copy of the
field (the error, the select list, the table name, the primary-key flag
and locator) is invariant under any change of that tag, the field never
becomes the primary key, the only errors its processing can raise are
the unsupported-type, malformed-index-tag and multiple-table errors
(never the two primary-key checks), and the `db_table` tag is still
honored. -/

theorem dscFromTypeField_errAbsorb (st : GBuildSt) (sf : GoField)
    (h : st.err.isSome = true) : dscFromTypeField st sf = st := by
  simp [dscFromTypeField, h]

theorem gTableStep_errAbsorb (st : GBuildSt) (sf : GoField)
    (h : st.err.isSome = true) : gTableStep st sf = st := by
  simp [gTableStep, h]

/-- The error after the `db_table` processing, as a formula in the prior
error, the field's `db_table` tag and the table name so far. -/
theorem tableStep_err_eq (st : BuildSt) (sf : GoField) :
    (tableStep st sf).err =
      if st.err.isSome then st.err
      else if sf.tagDbTable.length > 0 then
        (if st.dsc.tblStr.length = 0 then st.err
         else some "multiple occurrence of \"db_table\" tag")
      else st.err := by
  unfold tableStep
  by_cases h1 : st.err.isSome = true
  · simp [h1]
  · simp only [if_neg h1]
    by_cases h2 : sf.tagDbTable.length > 0
    · by_cases h3 : st.dsc.tblStr.length = 0 <;> simp [h1, h2, h3]
    · simp [h1, h2]

/-- The `gTableStep` analog of `tableStep_err_eq`. -/
theorem gTableStep_err_eq (st : GBuildSt) (sf : GoField) :
    (gTableStep st sf).err =
      if st.err.isSome then st.err
      else if sf.tagDbTable.length > 0 then
        (if st.dsc.tblStr.length = 0 then st.err
         else some "multiple occurrence of \"db_table\" tag")
      else st.err := by
  unfold gTableStep
  by_cases h1 : st.err.isSome = true
  · simp [h1]
  · simp only [if_neg h1]
    by_cases h2 : sf.tagDbTable.length > 0
    · by_cases h3 : st.dsc.tblStr.length = 0 <;> simp [h1, h2, h3]
    · simp [h1, h2]

theorem gTableStep_keeps_selList (st : GBuildSt) (sf : GoField) :
    (gTableStep st sf).selList = st.selList := by
  unfold gTableStep
  by_cases h1 : st.err.isSome = true
  · simp [h1]
  · simp only [if_neg h1]
    by_cases h2 : sf.tagDbTable.length > 0
    · by_cases h3 : st.dsc.tblStr.length = 0 <;> simp [h2, h3]
    · simp [h2]

theorem gTableStep_keeps_idPresent (st : GBuildSt) (sf : GoField) :
    (gTableStep st sf).dsc.idPresent = st.dsc.idPresent := by
  unfold gTableStep
  by_cases h1 : st.err.isSome = true
  · simp [h1]
  · simp only [if_neg h1]
    by_cases h2 : sf.tagDbTable.length > 0
    · by_cases h3 : st.dsc.tblStr.length = 0 <;> simp [h2, h3]
    · simp [h2]

theorem gTableStep_keeps_idSf (st : GBuildSt) (sf : GoField) :
    (gTableStep st sf).dsc.idSf = st.dsc.idSf := by
  unfold gTableStep
  by_cases h1 : st.err.isSome = true
  · simp [h1]
  · simp only [if_neg h1]
    by_cases h2 : sf.tagDbTable.length > 0
    · by_cases h3 : st.dsc.tblStr.length = 0 <;> simp [h2, h3]
    · simp [h2]

theorem tableStep_err_cases (st : BuildSt) (sf : GoField) :
    (tableStep st sf).err = st.err ∨
    (tableStep st sf).err = some "multiple occurrence of \"db_table\" tag" := by
  unfold tableStep
  by_cases h1 : st.err.isSome = true
  · simp [h1]
  · simp only [if_neg h1]
    by_cases h2 : sf.tagDbTable.length > 0
    · by_cases h3 : st.dsc.tblStr.length = 0 <;> simp [h2, h3]
    · simp [h2]

theorem gTableStep_err_cases (st : GBuildSt) (sf : GoField) :
    (gTableStep st sf).err = st.err ∨
    (gTableStep st sf).err = some "multiple occurrence of \"db_table\" tag" := by
  unfold gTableStep
  by_cases h1 : st.err.isSome = true
  · simp [h1]
  · simp only [if_neg h1]
    by_cases h2 : sf.tagDbTable.length > 0
    · by_cases h3 : st.dsc.tblStr.length = 0 <;> simp [h2, h3]
    · simp [h2]

theorem tableStep_keeps_idSf (st : BuildSt) (sf : GoField) :
    (tableStep st sf).dsc.idSf = st.dsc.idSf := by
  unfold tableStep
  by_cases h1 : st.err.isSome = true
  · simp [h1]
  · simp only [if_neg h1]
    by_cases h2 : sf.tagDbTable.length > 0
    · by_cases h3 : st.dsc.tblStr.length = 0 <;> simp [h2, h3]
    · simp [h2]

theorem processIndex_err_shape (tag fld : String) (m : IdxMap) (e : String)
    (h : (processIndex tag fld m).2 = some e) :
    ∃ s, e = "malformed index tag: " ++ s := by
  unfold processIndex at h
  by_cases ht : tag.length > 0
  · rw [if_pos ht] at h
    obtain ⟨s, _, _, hs3⟩ := processSegs_fail fld (goSplitComma tag) m (by simp [h])
    rw [h, Option.some.injEq] at hs3
    exact ⟨s, hs3⟩
  · rw [if_neg ht] at h
    cases h

/-- The managed-column processing of one `describe` iteration for a field
with a non-empty `db` tag: the error, the select list, the primary-key
flag and the primary-key locator do not depend on the field's
`db_primary` tag, the field never becomes the primary key, and the only
errors that can arise are the unsupported-type, malformed-index-tag and
multiple-table errors. -/
theorem describeField_managed (st : BuildSt) (f : GoField) (p : String)
    (hdb : f.tagDb.length > 0) :
    (describeField st (setPrimaryTag f p)).err = (describeField st f).err ∧
    (describeField st (setPrimaryTag f p)).selList = (describeField st f).selList ∧
    (describeField st f).dsc.idPresent = st.dsc.idPresent ∧
    (describeField st f).dsc.idSf = st.dsc.idSf ∧
    ((describeField st f).err = st.err ∨
     (describeField st f).err =
       some ("database does not support fields of type " ++ f.typeStr) ∨
     (∃ s, (describeField st f).err = some ("malformed index tag: " ++ s)) ∨
     (describeField st f).err = some "multiple occurrence of \"db_table\" tag") := by
  by_cases hs : st.err.isSome = true
  · rw [describeField_errAbsorb _ _ hs, describeField_errAbsorb _ _ hs]
    exact ⟨rfl, rfl, rfl, rfl, Or.inl rfl⟩
  · unfold describeField
    simp only [if_neg hs]
    dsimp only [setPrimaryTag]
    simp only [if_pos hdb]
    cases htm : typeMap f.typeStr with
    | none =>
      rw [tableStep_errAbsorb _ _ (by simp), tableStep_errAbsorb _ _ (by simp)]
      exact ⟨rfl, rfl, rfl, rfl, Or.inr (Or.inl rfl)⟩
    | some ts =>
      rcases hpi : processIndex f.tagDbIndex f.name st.dsc.idxMap with ⟨m, ie⟩
      dsimp only
      cases ie with
      | none =>
        dsimp only
        refine ⟨?_, ?_, ?_, ?_, ?_⟩
        · rw [tableStep_err_eq, tableStep_err_eq]
        · rw [(tableStep_keeps _ _).1, (tableStep_keeps _ _).1]
        · rw [(tableStep_keeps _ f).2.2]
        · rw [tableStep_keeps_idSf]
        · rw [tableStep_err_eq]
          dsimp only
          simp only [if_neg hs]
          by_cases h2 : f.tagDbTable.length > 0
          · by_cases h3 : st.dsc.tblStr.length = 0 <;> simp [h2, h3]
          · simp [h2]
      | some e =>
        dsimp only
        rw [tableStep_errAbsorb _ _ (by simp), tableStep_errAbsorb _ _ (by simp)]
        have hshape : ∃ s, e = "malformed index tag: " ++ s :=
          processIndex_err_shape f.tagDbIndex f.name st.dsc.idxMap e (by rw [hpi])
        obtain ⟨s, rfl⟩ := hshape
        exact ⟨rfl, rfl, rfl, rfl, Or.inr (Or.inr (Or.inl ⟨s, rfl⟩))⟩

/-- The managed-column processing of one `dscFromType` iteration
(`dbmap.go`), with the same guarantees as `describeField_managed`. -/
theorem dscFromTypeField_managed (st : GBuildSt) (f : GoField) (p : String)
    (hdb : f.tagDb.length > 0) :
    (dscFromTypeField st (setPrimaryTag f p)).err = (dscFromTypeField st f).err ∧
    (dscFromTypeField st (setPrimaryTag f p)).selList = (dscFromTypeField st f).selList ∧
    (dscFromTypeField st f).dsc.idPresent = st.dsc.idPresent ∧
    (dscFromTypeField st f).dsc.idSf = st.dsc.idSf ∧
    ((dscFromTypeField st f).err = st.err ∨
     (dscFromTypeField st f).err =
       some ("database does not support fields of type " ++ f.typeStr) ∨
     (dscFromTypeField st f).err = some "multiple occurrence of \"db_table\" tag") := by
  by_cases hs : st.err.isSome = true
  · rw [dscFromTypeField_errAbsorb _ _ hs, dscFromTypeField_errAbsorb _ _ hs]
    exact ⟨rfl, rfl, rfl, rfl, Or.inl rfl⟩
  · unfold dscFromTypeField
    simp only [if_neg hs]
    dsimp only [setPrimaryTag]
    simp only [if_pos hdb]
    cases htm : typeMap f.typeStr with
    | none =>
      rw [gTableStep_errAbsorb _ _ (by simp), gTableStep_errAbsorb _ _ (by simp)]
      exact ⟨rfl, rfl, rfl, rfl, Or.inr (Or.inl rfl)⟩
    | some ts =>
      dsimp only
      refine ⟨?_, ?_, ?_, ?_, ?_⟩
      · rw [gTableStep_err_eq, gTableStep_err_eq]
      · rw [gTableStep_keeps_selList, gTableStep_keeps_selList]
      · rw [gTableStep_keeps_idPresent]
      · rw [gTableStep_keeps_idSf]
      · rw [gTableStep_err_eq]
        dsimp only
        simp only [if_neg hs]
        by_cases h2 : f.tagDbTable.length > 0
        · by_cases h3 : st.dsc.tblStr.length = 0 <;> simp [h2, h3]
        · simp [h2]

theorem describeField_table_honored (st : BuildSt) (f : GoField)
    (hs : st.err = none) (hdb : f.tagDb.length > 0)
    (htm : (typeMap f.typeStr).isSome = true)
    (hpi : (processIndex f.tagDbIndex f.name st.dsc.idxMap).2 = none)
    (htb : f.tagDbTable.length > 0) (h0 : st.dsc.tblStr.length = 0) :
    (describeField st f).dsc.tblStr = f.tagDbTable ∧
    (describeField st f).err = none := by
  have hs' : st.err.isSome = false := by simp [hs]
  unfold describeField
  rw [if_neg (by simp [hs'])]
  simp only [if_pos hdb]
  obtain ⟨ts, hts⟩ := Option.isSome_iff_exists.mp htm
  rw [hts]
  dsimp only
  rcases hpi2 : processIndex f.tagDbIndex f.name st.dsc.idxMap with ⟨m, ie⟩
  rw [hpi2] at hpi
  dsimp only at hpi ⊢
  subst hpi
  constructor <;> simp [tableStep, hs, htb, h0]

theorem dscFromTypeField_table_honored (st : GBuildSt) (f : GoField)
    (hs : st.err = none) (hdb : f.tagDb.length > 0)
    (htm : (typeMap f.typeStr).isSome = true)
    (htb : f.tagDbTable.length > 0) (h0 : st.dsc.tblStr.length = 0) :
    (dscFromTypeField st f).dsc.tblStr = f.tagDbTable ∧
    (dscFromTypeField st f).err = none := by
  have hs' : st.err.isSome = false := by simp [hs]
  unfold dscFromTypeField
  rw [if_neg (by simp [hs'])]
  simp only [if_pos hdb]
  obtain ⟨ts, hts⟩ := Option.isSome_iff_exists.mp htm
  rw [hts]
  dsimp only
  constructor <;> simp [gTableStep, hs, htb, h0]

/-- C10: in both descriptor builders, a field whose `db` tag is non-empty
is processed only as a managed column: its `db_primary` tag is never
examined (the error, the select list, the primary-key flag and locator of
the loop state are invariant under any change of that tag), the field
never becomes the primary key, the multiple-primary-key and int64-type
checks cannot fire on it (only the unsupported-type, malformed-index-tag
and multiple-table errors can arise), and its `db_table` tag is still
honored. -/
theorem c10_db_tag_shadows_primary (st : BuildSt) (gst : GBuildSt)
    (f : GoField) (p : String) (hdb : f.tagDb.length > 0) :
    ((describeField st (setPrimaryTag f p)).err = (describeField st f).err ∧
     (describeField st (setPrimaryTag f p)).selList = (describeField st f).selList ∧
     (describeField st f).dsc.idPresent = st.dsc.idPresent ∧
     (describeField st f).dsc.idSf = st.dsc.idSf ∧
     ((describeField st f).err = st.err ∨
      (describeField st f).err =
        some ("database does not support fields of type " ++ f.typeStr) ∨
      (∃ s, (describeField st f).err = some ("malformed index tag: " ++ s)) ∨
      (describeField st f).err = some "multiple occurrence of \"db_table\" tag")) ∧
    ((dscFromTypeField gst (setPrimaryTag f p)).err = (dscFromTypeField gst f).err ∧
     (dscFromTypeField gst (setPrimaryTag f p)).selList = (dscFromTypeField gst f).selList ∧
     (dscFromTypeField gst f).dsc.idPresent = gst.dsc.idPresent ∧
     (dscFromTypeField gst f).dsc.idSf = gst.dsc.idSf) ∧
    (st.err = none → (typeMap f.typeStr).isSome = true →
      (processIndex f.tagDbIndex f.name st.dsc.idxMap).2 = none →
      f.tagDbTable.length > 0 → st.dsc.tblStr.length = 0 →
      (describeField st f).dsc.tblStr = f.tagDbTable ∧
      (describeField st f).err = none) ∧
    (gst.err = none → (typeMap f.typeStr).isSome = true →
      f.tagDbTable.length > 0 → gst.dsc.tblStr.length = 0 →
      (dscFromTypeField gst f).dsc.tblStr = f.tagDbTable ∧
      (dscFromTypeField gst f).err = none) := by
  obtain ⟨g1, g2, g3, g4, _⟩ := dscFromTypeField_managed gst f p hdb
  refine ⟨describeField_managed st f p hdb, ⟨g1, g2, g3, g4⟩,
    fun hs htm hpi htb h0 => describeField_table_honored st f hs hdb htm hpi htb h0,
    fun hs htm htb h0 => dscFromTypeField_table_honored gst f hs hdb htm htb h0⟩

/-- Witness for C10: a `bool` field carrying `db:"*"`, `db_primary:"*"`
and `db_table:"g"` (as in the repository's own coverage test) is
processed as a managed column — the primary-key flag stays off, no
int64-type failure arises, and the table tag is honored. -/
theorem c10_witness :
    (describeField (buildInit "gType") fldW).dsc.idPresent = false ∧
    (describeField (buildInit "gType") fldW).dsc.tblStr = "g" ∧
    (describeField (buildInit "gType") fldW).err = none := by
  obtain ⟨⟨_, _, c3, _, _⟩, _, c7, _⟩ :=
    c10_db_tag_shadows_primary (buildInit "gType") (gBuildInit "gType") fldW "x"
      (by decide)
  obtain ⟨t1, t2⟩ := c7 (by decide) (by decide) (by decide) (by decide) (by decide)
  exact ⟨c3, t1, t2⟩

/-! ### Transaction lifecycle guards (claim C7) -/

/-- C7 amended: `WrapType` fails a nested begin with the
nested-transaction error and leaves the transaction open; `DbType`, by
contrast, treats a begin with an open transaction as a silent no-op (no
error, no engine call, state unchanged); on both coordinators a commit or
rollback with no open transaction latches the no-active-transaction error
and leaves the transaction state unchanged. -/
theorem c7_transaction_guards (eng : Eng) (db : DbSt) (w : WrapSt) :
    (db.err = none → db.tx = true → dbTransactBegin eng db = (db, [])) ∧
    (w.errVal = none → w.tx = true →
      wTransactionBegin eng w =
        ({ w with errVal := some "nested transactions not supported" }, [])) ∧
    (db.err = none → db.tx = false →
      dbTransactCommit eng db =
        ({ db with err := some "no transaction to commit" }, []) ∧
      dbTransactRollback eng db =
        ({ db with err := some "no transaction to rollback" }, [])) ∧
    (w.errVal = none → w.tx = false →
      wTransactionCommit w = ({ w with errVal := some "no transaction to end" }, []) ∧
      wTransactionRollback w =
        ({ w with errVal := some "no transaction to end" }, []) ∧
      wTransactionEndAuto w =
        ({ w with errVal := some "no transaction to end" }, [])) := by
  refine ⟨fun h1 h2 => ?_, fun h1 h2 => ?_, fun h1 h2 => ⟨?_, ?_⟩,
    fun h1 h2 => ⟨?_, ?_, ?_⟩⟩ <;>
    simp [dbTransactBegin, dbTransactCommit, dbTransactRollback, dbTransactEnd,
      wTransactionBegin, wTransactionCommit, wTransactionRollback,
      wTransactionEndAuto, wTransactionEnd, h1, h2]

/-- Witness for the amended C7: the nested begin on a `WrapType` with an
open transaction, and the no-transaction commit on a fresh `DbType`. -/
theorem c7_witness :
    wTransactionBegin engOk wTxOpen =
      ({ wTxOpen with errVal := some "nested transactions not supported" }, []) ∧
    dbTransactCommit engOk dbInit =
      ({ dbInit with err := some "no transaction to commit" }, []) :=
  ⟨(c7_transaction_guards engOk dbInit wTxOpen).2.1 rfl rfl,
   ((c7_transaction_guards engOk dbInit wTxOpen).2.2.1 rfl rfl).1⟩

/-- Counterexample to C7 as stated: a `DbType` begin while a transaction
is already open is a silent no-op — no nested-transaction error is
latched, the state is unchanged and no engine call is made. -/
theorem c7_counterexample :
    dbTransactBegin engOk dbTxOpen = (dbTxOpen, []) ∧
    (dbTransactBegin engOk dbTxOpen).1.err = none := by
  decide

/-! ### Sticky-error latching (claim C1) -/

/-- C1 amended: on `DbType` the latch is complete — with an error
latched, every operation returns immediately with the state unchanged, no
engine call and an empty result, and neither `SetError` nor `SetErrorf`
replaces the stored error.  On `WrapType` every operation except the
transaction-finalization calls and `SetError` is likewise a complete
no-op; `TransactionCommit`/`TransactionRollback`/`TransactionEnd` are
no-ops only when no transaction is open, and still finalize and clear an
open transaction (rolling back under `TransactionEnd`); `SetErrorf` does
not replace the stored error, but `SetError` overwrites it with any
non-nil argument. -/
theorem c1_error_latch (eng : Eng) (db : DbSt) (w : WrapSt) (e msg : String)
    (cmd tailStr : String) (args prms : List Val) (arg : RecPtrArg)
    (insArg : InsArg) (retrArg : RetrArg) (fldNames : List String) (d : Dsc)
    (isPtr : Bool) (rec : GoRec) (entries : IdxMap) (e' : Option String) :
    (db.err = some e →
      dbExec eng db cmd args = (db, none, []) ∧
      dbQuery eng db cmd args = (db, none, []) ∧
      dbTransactBegin eng db = (db, []) ∧
      dbTransactCommit eng db = (db, []) ∧
      dbTransactRollback eng db = (db, []) ∧
      dbTableCreate eng db arg = (db, []) ∧
      dbUpdate eng db arg fldNames = (db, []) ∧
      dbDelete eng db arg tailStr prms = (db, []) ∧
      dbTruncate eng db arg = (db, []) ∧
      dbInsert eng db insArg =
        (db, (match insArg with | .slice _ rs => rs | .nonSlice _ => []), []) ∧
      dbRetrieve eng db retrArg tailStr prms =
        (db, (match retrArg with | .ptrSlice _ prior => prior | _ => []), []) ∧
      dbSetError db e' = db ∧
      dbSetErrorf db msg = db) ∧
    (w.errVal = some e →
      wInsert eng d w isPtr rec = (w, rec, []) ∧
      wInsertOrReplaceOp eng d w isPtr rec = (w, rec, []) ∧
      wUpdate eng d w rec fldNames = (w, []) ∧
      wCreate eng d w entries = (w, []) ∧
      wDelete eng d w tailStr args = (w, []) ∧
      wQuery eng d w isPtr rec tailStr args = (w, []) ∧
      wQueryRow eng d w isPtr rec tailStr args = (w, rec, []) ∧
      wNext d w rec = (w, rec, false) ∧
      wTransactionBegin eng w = (w, []) ∧
      wSetErrorf w msg = w ∧
      (w.tx = false →
        wTransactionCommit w = (w, []) ∧
        wTransactionRollback w = (w, []) ∧
        wTransactionEndAuto w = (w, [])) ∧
      (w.tx = true →
        wTransactionCommit w = ({ w with tx := false }, [.commitT]) ∧
        wTransactionRollback w = ({ w with tx := false }, [.rollbackT]) ∧
        wTransactionEndAuto w = ({ w with tx := false }, [.rollbackT]))) := by
  constructor
  · intro h
    refine ⟨?_, ?_, ?_, ?_, ?_, ?_, ?_, ?_, ?_, ?_, ?_, ?_, ?_⟩ <;>
      simp [dbExec, dbQuery, dbTransactBegin, dbTransactCommit, dbTransactRollback,
        dbTableCreate, dbUpdate, dbDelete, dbTruncate, dbInsert, dbRetrieve,
        dbSetError, dbSetErrorf, h]
    cases e' <;> rfl
  · intro h
    refine ⟨?_, ?_, ?_, ?_, ?_, ?_, ?_, ?_, ?_, ?_, ?_, ?_⟩
    all_goals try intro htx
    all_goals try refine ⟨?_, ?_, ?_⟩
    all_goals
      simp_all [wInsert, wInsertOrReplaceOp, wInsertOrReplace, wUpdate, wCreate,
        wDelete, wQuery, wQueryRow, wNext, wTransactionBegin, wSetErrorf,
        wTransactionCommit, wTransactionRollback, wTransactionEndAuto,
        wTransactionEnd]

/-- Witness for the amended C1: an errored `DbType` ignores `Exec` and a
further `SetError`, and an errored `WrapType` ignores `Update`. -/
theorem c1_witness :
    dbExec engOk dbErrSt "DELETE FROM rec;" [] = (dbErrSt, none, []) ∧
    dbSetError dbErrSt (some "second") = dbErrSt ∧
    wUpdate engOk dscEx wErrSt recEx ["b"] = (wErrSt, []) := by
  obtain ⟨hdb, _⟩ := c1_error_latch engOk dbErrSt wErrSt "latched" "m"
    "DELETE FROM rec;" "" [] [] (.nonPtr "int") (.nonSlice "int")
    (.nonPtr "int") ["b"] dscEx true recEx [] (some "second")
  obtain ⟨_, hw⟩ := c1_error_latch engOk dbErrSt wErrSt "first" "m"
    "DELETE FROM rec;" "" [] [] (.nonPtr "int") (.nonSlice "int")
    (.nonPtr "int") ["b"] dscEx true recEx [] (some "second")
  exact ⟨(hdb rfl).1, (hdb rfl).2.2.2.2.2.2.2.2.2.2.2.1, (hw rfl).2.2.1⟩

/-- Counterexample to C1 as stated: `WrapType.SetError` with a non-nil
argument replaces an already latched error instead of preserving it. -/
theorem c1_counterexample :
    wSetError wErrSt (some "second") = { wErrSt with errVal := some "second" } ∧
    wErrSt.errVal = some "first" ∧
    (wSetError wErrSt (some "second")).errVal ≠ some "first" := by
  decide

/-! ### Retrieve and the destination slice (claim C3) -/

theorem dbRetrieveLoop_errState (dsc : DscG) (db : DbSt) (buf : List Val)
    (acc : List (List Val)) (rows : List RowRes) (e : String)
    (h : db.err = some e) :
    dbRetrieveLoop dsc db buf acc rows = (db, acc) := by
  induction rows with
  | nil => rw [dbRetrieveLoop.eq_def]
  | cons row rest ih =>
    rw [dbRetrieveLoop.eq_def, h]
    dsimp only
    exact ih

theorem dbRetrieveLoop_all_ok (dsc : DscG) (db : DbSt) (buf : List Val)
    (acc : List (List Val)) (okVals : List (List Val)) (h : db.err = none) :
    dbRetrieveLoop dsc db buf acc (okVals.map Except.ok) =
      (db, acc ++ scansFrom dsc buf okVals) := by
  induction okVals generalizing buf acc with
  | nil => rw [List.map_nil, dbRetrieveLoop.eq_def]; simp [scansFrom]
  | cons v rest ih =>
    rw [List.map_cons, dbRetrieveLoop.eq_def, h]
    dsimp only
    rw [ih]
    simp [scansFrom]

theorem dbRetrieveLoop_fails (dsc : DscG) (db : DbSt) (buf : List Val)
    (acc : List (List Val)) (pre0 : List (List Val)) (e : String)
    (post : List RowRes) (h : db.err = none) :
    dbRetrieveLoop dsc db buf acc (pre0.map Except.ok ++ .error e :: post) =
      ({ db with err := some e }, acc ++ scansFrom dsc buf pre0) := by
  induction pre0 generalizing buf acc with
  | nil =>
    rw [List.map_nil, List.nil_append, dbRetrieveLoop.eq_def, h]
    dsimp only
    rw [dbRetrieveLoop_errState dsc _ buf acc post e rfl]
    simp [scansFrom]
  | cons v rest ih =>
    rw [List.map_cons, List.cons_append, dbRetrieveLoop.eq_def, h]
    dsimp only
    rw [ih]
    simp [scansFrom]

/-- `Query` under a successful prepare and a successful engine query. -/
theorem dbQuery_ok (eng : Eng) (db : DbSt) (cmd : String) (args : List Val)
    (rows : List RowRes) (rerr : Option String) (h : db.err = none)
    (hprep : eng.prepOk cmd = none)
    (hq : eng.queryRes cmd args = .ok (rows, rerr)) :
    dbQuery eng db cmd args =
      ((if db.stmtCache.contains cmd then db
        else { db with stmtCache := db.stmtCache ++ [cmd] }),
       some (rows, rerr),
       (if db.stmtCache.contains cmd then [] else [.prepareC cmd]) ++
         [.queryC cmd args]) := by
  unfold dbQuery dbStatement
  by_cases hc : cmd ∈ db.stmtCache <;>
    simp [h, hc, hprep, hq]

/-- C3 amended: when every row scans successfully, `Retrieve` leaves the
destination holding its prior contents followed by all scanned records;
when the row loop hits a scan failure, the error is latched but the
write-back is skipped, so the destination holds exactly its pre-call
contents — the records scanned before the failure are discarded, not
appended. -/
theorem c3_retrieve_destination (eng : Eng) (db : DbSt) (tp : GoType)
    (prior : List (List Val)) (tailStr : String) (prms : List Val)
    (okVals : List (List Val)) (e : String) (post : List RowRes)
    (rerr : Option String)
    (h0 : db.err = none)
    (hdsc : (dbDscFromType db tp false).1.err = none)
    (hprep : eng.prepOk (dbSelectCmd (dbDscFromType db tp false).2 tailStr) = none) :
    (eng.queryRes (dbSelectCmd (dbDscFromType db tp false).2 tailStr) prms =
        .ok (okVals.map Except.ok, rerr) →
      (dbRetrieve eng db (.ptrSlice tp prior) tailStr prms).2.1 =
        prior ++ scansFrom (dbDscFromType db tp false).2 (zeroRec tp) okVals ∧
      (dbRetrieve eng db (.ptrSlice tp prior) tailStr prms).1.err = none) ∧
    (eng.queryRes (dbSelectCmd (dbDscFromType db tp false).2 tailStr) prms =
        .ok (okVals.map Except.ok ++ .error e :: post, rerr) →
      (dbRetrieve eng db (.ptrSlice tp prior) tailStr prms).2.1 = prior ∧
      (dbRetrieve eng db (.ptrSlice tp prior) tailStr prms).1.err = some e) := by
  rcases hP : dbDscFromType db tp false with ⟨db1, dsc⟩
  rw [hP] at hdsc hprep
  dsimp only at hdsc hprep
  have hq1 : db1.err = none := hdsc
  have hbody : ∀ rows rerr',
      eng.queryRes (dbSelectCmd dsc tailStr) prms = .ok (rows, rerr') →
      dbRetrieve eng db (.ptrSlice tp prior) tailStr prms =
        (let db2 := if db1.stmtCache.contains (dbSelectCmd dsc tailStr) then db1
           else { db1 with stmtCache := db1.stmtCache ++ [dbSelectCmd dsc tailStr] }
         let evs := (if db1.stmtCache.contains (dbSelectCmd dsc tailStr) then []
           else [Ev.prepareC (dbSelectCmd dsc tailStr)]) ++
             [Ev.queryC (dbSelectCmd dsc tailStr) prms]
         let lp := dbRetrieveLoop dsc db2 (zeroRec tp) prior rows
         match lp.1.err with
         | none => (lp.1, lp.2, evs)
         | some _ => (lp.1, prior, evs)) := by
    intro rows rerr' hq
    rw [dbRetrieve, h0]
    dsimp only
    rw [hP]
    dsimp only
    rw [hq1]
    dsimp only
    rw [dbQuery_ok eng db1 _ prms rows rerr' hq1 hprep hq]
    dsimp only
    have h2e : (if db1.stmtCache.contains (dbSelectCmd dsc tailStr) then db1
        else { db1 with stmtCache := db1.stmtCache ++ [dbSelectCmd dsc tailStr] }).err
        = none := by
      by_cases hc : dbSelectCmd dsc tailStr ∈ db1.stmtCache <;> simp [hc, hq1]
    rw [h2e]
    dsimp only
    rw [hq1]
  constructor
  · intro hq
    rw [hbody _ _ hq]
    dsimp only
    have h2e : (if db1.stmtCache.contains (dbSelectCmd dsc tailStr) then db1
        else { db1 with stmtCache := db1.stmtCache ++ [dbSelectCmd dsc tailStr] }).err
        = none := by
      by_cases hc : dbSelectCmd dsc tailStr ∈ db1.stmtCache <;> simp [hc, hq1]
    rw [dbRetrieveLoop_all_ok _ _ _ _ _ h2e]
    dsimp only
    rw [h2e]
    exact ⟨rfl, h2e⟩
  · intro hq
    rw [hbody _ _ hq]
    dsimp only
    have h2e : (if db1.stmtCache.contains (dbSelectCmd dsc tailStr) then db1
        else { db1 with stmtCache := db1.stmtCache ++ [dbSelectCmd dsc tailStr] }).err
        = none := by
      by_cases hc : dbSelectCmd dsc tailStr ∈ db1.stmtCache <;> simp [hc, hq1]
    rw [dbRetrieveLoop_fails _ _ _ _ _ _ _ h2e]
    dsimp only
    exact ⟨rfl, rfl⟩

/-- Witness for the amended C3 at the fixture type against an engine
whose second row fails to scan: the destination keeps exactly its
pre-call contents and the scan error is latched. -/
theorem c3_witness :
    (dbRetrieve engScanFail dbInit (.ptrSlice tpEx [[9, 9, 9]]) "" []).2.1 =
      [[9, 9, 9]] ∧
    (dbRetrieve engScanFail dbInit (.ptrSlice tpEx [[9, 9, 9]]) "" []).1.err =
      some "boom" :=
  (c3_retrieve_destination engScanFail dbInit tpEx [[9, 9, 9]] "" []
    [[1, 2, 3]] "boom" [] none (by decide) (by decide) (by decide)).2 (by decide)

/-- Counterexample to C3 as stated: with one row scanned successfully
before the failure (`k = 1`), the claim demands that the destination hold
its prior contents plus that one record, but `Retrieve` skips the
write-back on error and the destination holds the prior contents only. -/
theorem c3_counterexample :
    (dbRetrieve engScanFail dbInit (.ptrSlice tpEx [[9, 9, 9]]) "" []).1.err =
      some "boom" ∧
    (dbRetrieve engScanFail dbInit (.ptrSlice tpEx [[9, 9, 9]]) "" []).2.1 =
      [[9, 9, 9]] ∧
    (dbRetrieve engScanFail dbInit (.ptrSlice tpEx [[9, 9, 9]]) "" []).2.1 ≠
      [[9, 9, 9], [1, 2, 3]] := by
  decide

/-! ### Bulk insert transaction discipline (claim C2) -/

/-- `SetErrorf` never touches the transaction flag. -/
theorem dbSetErrorf_tx (db : DbSt) (msg : String) :
    (dbSetErrorf db msg).tx = db.tx := by
  unfold dbSetErrorf
  split <;> rfl

/-- Building a descriptor never touches the transaction flag. -/
theorem dbDscFromType_tx (db : DbSt) (tp : GoType) (pk : Bool) :
    (dbDscFromType db tp pk).1.tx = db.tx := by
  unfold dbDscFromType
  repeat' split
  any_goals simp [dbSetErrorf_tx]
  all_goals rename_i heq hcond
  all_goals split at heq
  any_goals split at heq
  all_goals cases heq
  all_goals simp [dbSetErrorf_tx]

/-- `Exec` under a cached-or-successful prepare and a successful
execution. -/
theorem dbExec_ok (eng : Eng) (db : DbSt) (cmd : String) (args : List Val)
    (p q : Int) (h : db.err = none) (hprep : eng.prepOk cmd = none)
    (hex : eng.execRes cmd args = .ok (p, q)) :
    dbExec eng db cmd args =
      ((if db.stmtCache.contains cmd then db
        else { db with stmtCache := db.stmtCache ++ [cmd] }),
       some (p, q),
       (if db.stmtCache.contains cmd then [] else [.prepareC cmd]) ++
         [.execC cmd args]) := by
  unfold dbExec dbStatement
  by_cases hc : cmd ∈ db.stmtCache <;> simp [h, hc, hprep, hex]

/-- `Exec` under a cached-or-successful prepare and a failing
execution. -/
theorem dbExec_execErr (eng : Eng) (db : DbSt) (cmd : String)
    (args : List Val) (e : String) (h : db.err = none)
    (hprep : eng.prepOk cmd = none)
    (hex : eng.execRes cmd args = .error e) :
    dbExec eng db cmd args =
      ({ (if db.stmtCache.contains cmd then db
          else { db with stmtCache := db.stmtCache ++ [cmd] }) with
          err := some e },
       none,
       (if db.stmtCache.contains cmd then [] else [.prepareC cmd]) ++
         [.execC cmd args]) := by
  unfold dbExec dbStatement
  by_cases hc : cmd ∈ db.stmtCache <;> simp [h, hc, hprep, hex]

/-- The record loop of `Insert` is inert under a latched error. -/
theorem dbInsertLoop_errState (eng : Eng) (cmd : String) (dsc : DscG)
    (db : DbSt) (recs : List (List Val)) (e : String)
    (h : db.err = some e) :
    dbInsertLoop eng cmd dsc db recs = (db, recs, []) := by
  cases recs with
  | nil => rw [dbInsertLoop.eq_def]
  | cons r rest => rw [dbInsertLoop.eq_def, h]

/-- The record loop with every execution succeeding: no error, the
transaction flag untouched, one execution event per record and no
transaction events. -/
theorem dbInsertLoop_all_ok (eng : Eng) (cmd : String) (dsc : DscG)
    (hprep : eng.prepOk cmd = none) (recs : List (List Val)) :
    ∀ db : DbSt, db.err = none →
    (∀ x ∈ recs, ∃ p q : Int,
      eng.execRes cmd (insArgsOf dsc x) = .ok (p, q)) →
    (dbInsertLoop eng cmd dsc db recs).1.err = none ∧
    (dbInsertLoop eng cmd dsc db recs).1.tx = db.tx ∧
    ((dbInsertLoop eng cmd dsc db recs).2.2.filter isExecEv).length =
      recs.length ∧
    (dbInsertLoop eng cmd dsc db recs).2.2.filter isBeginEv = [] ∧
    (dbInsertLoop eng cmd dsc db recs).2.2.filter isEndEv = [] := by
  induction recs with
  | nil =>
    intro db h _
    rw [dbInsertLoop.eq_def]
    exact ⟨h, rfl, rfl, rfl, rfl⟩
  | cons r rest ih =>
    intro db h hex
    obtain ⟨p, q, hr⟩ := hex r (List.mem_cons_self r rest)
    rw [dbInsertLoop.eq_def, h]
    dsimp only
    rw [dbExec_ok eng db cmd _ p q h hprep hr]
    dsimp only
    have he : (if db.stmtCache.contains cmd then db
        else { db with stmtCache := db.stmtCache ++ [cmd] }).err = none := by
      by_cases hc : cmd ∈ db.stmtCache <;> simp [hc, h]
    have ht : (if db.stmtCache.contains cmd then db
        else { db with stmtCache := db.stmtCache ++ [cmd] }).tx = db.tx := by
      by_cases hc : cmd ∈ db.stmtCache <;> simp [hc]
    rw [he]
    dsimp only
    obtain ⟨i1, i2, i3, i4, i5⟩ :=
      ih _ he (fun x hx => hex x (List.mem_cons_of_mem r hx))
    rcases hl : dbInsertLoop eng cmd dsc
        (if db.stmtCache.contains cmd then db
         else { db with stmtCache := db.stmtCache ++ [cmd] }) rest with
      ⟨db2, rest', evs'⟩
    rw [hl] at i1 i2 i3 i4 i5
    dsimp only at i1 i2 i3 i4 i5
    dsimp only
    refine ⟨i1, i2.trans ht, ?_, ?_, ?_⟩ <;>
      by_cases hc : cmd ∈ db.stmtCache <;>
        simp [hc, isExecEv, isBeginEv, isEndEv, i3, i4, i5]

/-- The record loop with a failing record after a successfully inserted
run: the loop stops at the failure and latches its error; the failing
record and every record after it are returned unchanged. -/
theorem dbInsertLoop_fails (eng : Eng) (cmd : String) (dsc : DscG)
    (hprep : eng.prepOk cmd = none) (r : List Val)
    (post : List (List Val)) (e : String)
    (hr : eng.execRes cmd (insArgsOf dsc r) = .error e)
    (pre : List (List Val)) :
    ∀ db : DbSt, db.err = none →
    (∀ x ∈ pre, ∃ p q : Int,
      eng.execRes cmd (insArgsOf dsc x) = .ok (p, q)) →
    (dbInsertLoop eng cmd dsc db (pre ++ r :: post)).1.err = some e ∧
    (dbInsertLoop eng cmd dsc db (pre ++ r :: post)).1.tx = db.tx ∧
    ((dbInsertLoop eng cmd dsc db (pre ++ r :: post)).2.2.filter
      isExecEv).length = pre.length + 1 ∧
    (dbInsertLoop eng cmd dsc db (pre ++ r :: post)).2.2.filter
      isBeginEv = [] ∧
    (dbInsertLoop eng cmd dsc db (pre ++ r :: post)).2.2.filter
      isEndEv = [] ∧
    ∃ pre2,
      (dbInsertLoop eng cmd dsc db (pre ++ r :: post)).2.1 =
        pre2 ++ r :: post ∧
      pre2.length = pre.length := by
  induction pre with
  | nil =>
    intro db h _
    rw [List.nil_append, dbInsertLoop.eq_def, h]
    dsimp only
    rw [dbExec_execErr eng db cmd _ e h hprep hr]
    dsimp only
    refine ⟨rfl, ?_, ?_, ?_, ?_, [], rfl, rfl⟩ <;>
      by_cases hc : cmd ∈ db.stmtCache <;>
        simp [hc, isExecEv, isBeginEv, isEndEv]
  | cons x xs ihp =>
    intro db h hpre
    obtain ⟨p, q, hx⟩ := hpre x (List.mem_cons_self x xs)
    rw [List.cons_append, dbInsertLoop.eq_def, h]
    dsimp only
    rw [dbExec_ok eng db cmd _ p q h hprep hx]
    dsimp only
    have he : (if db.stmtCache.contains cmd then db
        else { db with stmtCache := db.stmtCache ++ [cmd] }).err = none := by
      by_cases hc : cmd ∈ db.stmtCache <;> simp [hc, h]
    have ht : (if db.stmtCache.contains cmd then db
        else { db with stmtCache := db.stmtCache ++ [cmd] }).tx = db.tx := by
      by_cases hc : cmd ∈ db.stmtCache <;> simp [hc]
    rw [he]
    dsimp only
    obtain ⟨i1, i2, i3, i4, i5, pre2, hrec, hlen⟩ :=
      ihp _ he (fun y hy => hpre y (List.mem_cons_of_mem x hy))
    rcases hl : dbInsertLoop eng cmd dsc
        (if db.stmtCache.contains cmd then db
         else { db with stmtCache := db.stmtCache ++ [cmd] })
        (xs ++ r :: post) with ⟨db2, rest', evs'⟩
    rw [hl] at i1 i2 i3 i4 i5 hrec
    dsimp only at i1 i2 i3 i4 i5 hrec
    dsimp only
    refine ⟨i1, i2.trans ht, ?_, ?_, ?_,
      x.set dsc.idSf.idx q :: pre2, ?_, ?_⟩
    · by_cases hc : cmd ∈ db.stmtCache <;>
        simp [hc, isExecEv, i3]
    · by_cases hc : cmd ∈ db.stmtCache <;> simp [hc, isBeginEv, i4]
    · by_cases hc : cmd ∈ db.stmtCache <;> simp [hc, isEndEv, i5]
    · rw [hrec, List.cons_append]
    · simp [hlen]

/-- C2 amended: bulk `Insert` builds the descriptor (primary key
required) and opens a transaction only if none is active; the record loop
executes the single prepared insert statement once per record and
abandons the remaining records at the first failure, which are returned
unchanged; but the final `transactEnd` always commits (on success) or
rolls back (on failure) whatever transaction is then open — including one
the caller opened before the call, which is therefore not left open for
the caller — and its engine result overwrites the error state. -/
theorem c2_bulk_insert_transaction (eng : Eng) (db : DbSt) (tp : GoType)
    (recs pre post : List (List Val)) (r : List Val) (e : String)
    (h0 : db.err = none)
    (hdsc : (dbDscFromType db tp true).1.err = none)
    (hprep : eng.prepOk (dbInsertCmd (dbDscFromType db tp true).2) = none)
    (hbeg : eng.beginOk = none) :
    ((∀ x ∈ recs, ∃ p q : Int,
        eng.execRes (dbInsertCmd (dbDscFromType db tp true).2)
          (insArgsOf (dbDscFromType db tp true).2 x) = .ok (p, q)) →
      (dbInsert eng db (.slice tp recs)).1.tx = false ∧
      (dbInsert eng db (.slice tp recs)).1.err = eng.commitOk ∧
      (((dbInsert eng db (.slice tp recs)).2.2.filter isBeginEv).length =
        if db.tx then 0 else 1) ∧
      ((dbInsert eng db (.slice tp recs)).2.2.filter isExecEv).length =
        recs.length ∧
      ∃ evs, (dbInsert eng db (.slice tp recs)).2.2 =
        evs ++ [Ev.commitT]) ∧
    ((∀ x ∈ pre, ∃ p q : Int,
        eng.execRes (dbInsertCmd (dbDscFromType db tp true).2)
          (insArgsOf (dbDscFromType db tp true).2 x) = .ok (p, q)) →
      eng.execRes (dbInsertCmd (dbDscFromType db tp true).2)
        (insArgsOf (dbDscFromType db tp true).2 r) = .error e →
      (dbInsert eng db (.slice tp (pre ++ r :: post))).1.tx = false ∧
      (dbInsert eng db (.slice tp (pre ++ r :: post))).1.err =
        eng.rollbackOk ∧
      (((dbInsert eng db (.slice tp (pre ++ r :: post))).2.2.filter
          isBeginEv).length = if db.tx then 0 else 1) ∧
      ((dbInsert eng db (.slice tp (pre ++ r :: post))).2.2.filter
        isExecEv).length = pre.length + 1 ∧
      (∃ evs, (dbInsert eng db (.slice tp (pre ++ r :: post))).2.2 =
        evs ++ [Ev.rollbackT]) ∧
      ∃ pre2,
        (dbInsert eng db (.slice tp (pre ++ r :: post))).2.1 =
          pre2 ++ r :: post ∧
        pre2.length = pre.length) := by
  rcases hP : dbDscFromType db tp true with ⟨db1, dsc⟩
  rw [hP] at hdsc hprep
  dsimp only at hdsc hprep
  dsimp only
  have htx1 : db1.tx = db.tx := by
    have h := dbDscFromType_tx db tp true
    rw [hP] at h
    exact h
  constructor
  · intro hex
    rw [dbInsert.eq_def, h0]
    dsimp only
    rw [hP]
    dsimp only
    rw [hdsc]
    dsimp only
    cases htX : db.tx with
    | true =>
      have hb : dbTransactBegin eng db1 = (db1, []) := by
        unfold dbTransactBegin
        rw [hdsc, htx1, htX]
        rfl
      rw [hb]
      dsimp only
      obtain ⟨i1, i2, i3, i4, i5⟩ :=
        dbInsertLoop_all_ok eng (dbInsertCmd dsc) dsc hprep recs db1 hdsc hex
      rcases hl : dbInsertLoop eng (dbInsertCmd dsc) dsc db1 recs with
        ⟨db3, recs', evs2⟩
      rw [hl] at i1 i2 i3 i4 i5
      dsimp only at i1 i2 i3 i4 i5
      dsimp only
      have htx3 : db3.tx = true := by rw [i2, htx1, htX]
      have hend : dbTransactEnd eng db3 (db3.err = none) =
          ({ db3 with err := eng.commitOk, tx := false }, [Ev.commitT]) := by
        unfold dbTransactEnd
        rw [htx3, i1]
        simp
      rw [hend]
      dsimp only
      refine ⟨rfl, rfl, ?_, ?_, evs2, by simp⟩
      · simp [htX, i4, List.filter_append, isBeginEv]
      · simp [i3, i4, i5, List.filter_append, isExecEv]
    | false =>
      have hb : dbTransactBegin eng db1 =
          ({ db1 with err := none, tx := true }, [Ev.beginT]) := by
        unfold dbTransactBegin
        rw [hdsc, htx1, htX, hbeg]
        rfl
      rw [hb]
      dsimp only
      have h2e : ({ db1 with err := none, tx := true } : DbSt).err = none := rfl
      obtain ⟨i1, i2, i3, i4, i5⟩ :=
        dbInsertLoop_all_ok eng (dbInsertCmd dsc) dsc hprep recs
          { db1 with err := none, tx := true } h2e hex
      rcases hl : dbInsertLoop eng (dbInsertCmd dsc) dsc
          { db1 with err := none, tx := true } recs with ⟨db3, recs', evs2⟩
      rw [hl] at i1 i2 i3 i4 i5
      dsimp only at i1 i2 i3 i4 i5
      dsimp only
      have htx3 : db3.tx = true := by rw [i2]
      have hend : dbTransactEnd eng db3 (db3.err = none) =
          ({ db3 with err := eng.commitOk, tx := false }, [Ev.commitT]) := by
        unfold dbTransactEnd
        rw [htx3, i1]
        simp
      rw [hend]
      dsimp only
      refine ⟨rfl, rfl, ?_, ?_, Ev.beginT :: evs2, by simp⟩
      · simp [htX, i4, List.filter_append, isBeginEv]
      · simp [i3, i4, i5, List.filter_append, isExecEv]
  · intro hpre hr
    rw [dbInsert.eq_def, h0]
    dsimp only
    rw [hP]
    dsimp only
    rw [hdsc]
    dsimp only
    cases htX : db.tx with
    | true =>
      have hb : dbTransactBegin eng db1 = (db1, []) := by
        unfold dbTransactBegin
        rw [hdsc, htx1, htX]
        rfl
      rw [hb]
      dsimp only
      obtain ⟨i1, i2, i3, i4, i5, pre2, hrec, hlen⟩ :=
        dbInsertLoop_fails eng (dbInsertCmd dsc) dsc hprep r post e hr pre
          db1 hdsc hpre
      rcases hl : dbInsertLoop eng (dbInsertCmd dsc) dsc db1
          (pre ++ r :: post) with ⟨db3, recs', evs2⟩
      rw [hl] at i1 i2 i3 i4 i5 hrec
      dsimp only at i1 i2 i3 i4 i5 hrec
      dsimp only
      have htx3 : db3.tx = true := by rw [i2, htx1, htX]
      have hend : dbTransactEnd eng db3 (db3.err = none) =
          ({ db3 with err := eng.rollbackOk, tx := false },
           [Ev.rollbackT]) := by
        unfold dbTransactEnd
        rw [htx3, i1]
        simp
      rw [hend]
      dsimp only
      refine ⟨rfl, rfl, ?_, ?_, ⟨evs2, by simp⟩, pre2, hrec, hlen⟩
      · simp [htX, i4, List.filter_append, isBeginEv]
      · simp [i3, i4, i5, List.filter_append, isExecEv]
    | false =>
      have hb : dbTransactBegin eng db1 =
          ({ db1 with err := none, tx := true }, [Ev.beginT]) := by
        unfold dbTransactBegin
        rw [hdsc, htx1, htX, hbeg]
        rfl
      rw [hb]
      dsimp only
      have h2e : ({ db1 with err := none, tx := true } : DbSt).err = none := rfl
      obtain ⟨i1, i2, i3, i4, i5, pre2, hrec, hlen⟩ :=
        dbInsertLoop_fails eng (dbInsertCmd dsc) dsc hprep r post e hr pre
          { db1 with err := none, tx := true } h2e hpre
      rcases hl : dbInsertLoop eng (dbInsertCmd dsc) dsc
          { db1 with err := none, tx := true } (pre ++ r :: post) with
        ⟨db3, recs', evs2⟩
      rw [hl] at i1 i2 i3 i4 i5 hrec
      dsimp only at i1 i2 i3 i4 i5 hrec
      dsimp only
      have htx3 : db3.tx = true := by rw [i2]
      have hend : dbTransactEnd eng db3 (db3.err = none) =
          ({ db3 with err := eng.rollbackOk, tx := false },
           [Ev.rollbackT]) := by
        unfold dbTransactEnd
        rw [htx3, i1]
        simp
      rw [hend]
      dsimp only
      refine ⟨rfl, rfl, ?_, ?_, ⟨Ev.beginT :: evs2, by simp⟩, pre2, hrec, hlen⟩
      · simp [htX, i4, List.filter_append, isBeginEv]
      · simp [i3, i4, i5, List.filter_append, isExecEv]

/-- Witness for the amended C2, exercising both conclusions: with an
all-successful engine and a caller-opened transaction the insert issues
no begin and finishes by committing that transaction; with an engine
failing on the second record the loop stops after two executions, the
call finishes with a rollback, and the unprocessed records are returned
unchanged. -/
theorem c2_witness :
    ((dbInsert engOk dbTxOpen (.slice tpEx [[5, 0, 6]])).1.tx = false ∧
     (dbInsert engOk dbTxOpen (.slice tpEx [[5, 0, 6]])).1.err = none ∧
     (((dbInsert engOk dbTxOpen
         (.slice tpEx [[5, 0, 6]])).2.2.filter isBeginEv).length = 0) ∧
     ((dbInsert engOk dbTxOpen
        (.slice tpEx [[5, 0, 6]])).2.2.filter isExecEv).length = 1 ∧
     ∃ evs, (dbInsert engOk dbTxOpen (.slice tpEx [[5, 0, 6]])).2.2 =
       evs ++ [Ev.commitT]) ∧
    ((dbInsert engExecFailOn78 dbInit
       (.slice tpEx ([[5, 0, 6]] ++ [7, 0, 8] :: [[9, 0, 10]]))).1.tx =
        false ∧
     (dbInsert engExecFailOn78 dbInit
       (.slice tpEx ([[5, 0, 6]] ++ [7, 0, 8] :: [[9, 0, 10]]))).1.err =
        none ∧
     (((dbInsert engExecFailOn78 dbInit
         (.slice tpEx ([[5, 0, 6]] ++ [7, 0, 8] :: [[9, 0, 10]]))).2.2.filter
         isBeginEv).length = 1) ∧
     ((dbInsert engExecFailOn78 dbInit
        (.slice tpEx ([[5, 0, 6]] ++ [7, 0, 8] :: [[9, 0, 10]]))).2.2.filter
        isExecEv).length = 2 ∧
     (∃ evs, (dbInsert engExecFailOn78 dbInit
        (.slice tpEx ([[5, 0, 6]] ++ [7, 0, 8] :: [[9, 0, 10]]))).2.2 =
        evs ++ [Ev.rollbackT]) ∧
     ∃ pre2, (dbInsert engExecFailOn78 dbInit
        (.slice tpEx ([[5, 0, 6]] ++ [7, 0, 8] :: [[9, 0, 10]]))).2.1 =
        pre2 ++ [7, 0, 8] :: [[9, 0, 10]] ∧ pre2.length = 1) :=
  ⟨(c2_bulk_insert_transaction engOk dbTxOpen tpEx [[5, 0, 6]] [] [] []
      "x" rfl (by decide) rfl rfl).1 (fun x _ => ⟨1, 7, rfl⟩),
   (c2_bulk_insert_transaction engExecFailOn78 dbInit tpEx [] [[5, 0, 6]]
      [[9, 0, 10]] [7, 0, 8] "constraint" rfl (by decide) rfl rfl).2
     (fun x hx => by
       rw [List.mem_singleton] at hx
       subst hx
       exact ⟨1, 42, by decide⟩)
     (by decide)⟩

/-- Counterexample to C2 as stated: the claim says a transaction the
caller opened before the call is left open for the caller, but `Insert`
on a state with a caller-opened transaction issues no begin and still
commits that transaction, leaving no transaction open on return. -/
theorem c2_counterexample :
    dbTxOpen.tx = true ∧
    (dbInsert engOk dbTxOpen (.slice tpEx [[5, 0, 6]])).2.2.filter
      isBeginEv = [] ∧
    (dbInsert engOk dbTxOpen (.slice tpEx [[5, 0, 6]])).2.2.filter
      isEndEv = [Ev.commitT] ∧
    (dbInsert engOk dbTxOpen (.slice tpEx [[5, 0, 6]])).1.tx = false := by
  decide

end Dbmap
